import Mathlib

/-!
Verification of the twilight-indexer core against its specification.

This file shallowly embeds the parts of the indexer that the spec's claims
speak about:

* the program-bytecode disassembler (`decode_program_opcodes` in `src/api.rs`),
* the persistence gateway (`src/db.rs`, with conflict keys from `src/schema.rs`),
* the domain fact extractor / message dispatcher (`decode_standard_any` and
  `decode_tx_base64_standard` in `src/transaction_types.rs`, the inner
  confidential-transaction handler `decode_qq_transaction` in
  `src/quis_quis_tx.rs`),
* the ingestion loop (`subscribe_block` in `src/pubsub_chain.rs`).

External collaborators (the PostgreSQL connection, the HTTP chain endpoint,
the cryptographic account library, protobuf/base64/bincode codecs) are out of
scope per the spec; they are represented by oracles or by already-decoded
values, while every branch, guard, mutation and error path of the in-scope
code is translated statement by statement.
-/

namespace TwilightIndexer

/-! ## Program bytecode disassembler (`src/api.rs`, `decode_program_opcodes`)

The Rust routine walks a `Vec<u8>`: each byte is an opcode tag; some opcodes
carry a trailing 4-byte little-endian argument which is consumed only when at
least 4 bytes remain (`if i + 4 <= bytes.len()`); opcodes `0x00`/`0x01`
additionally skip a data blob of the decoded length.  We embed the byte buffer
as `List UInt8`; out-of-range reads cannot occur because every access is
guarded exactly as in the source (`getD` defaults are unreachable under the
guards). -/

/-- Little-endian 32-bit read at position `j` (source: `u32::from_le_bytes`).
Only evaluated under the guard `j + 4 ≤ bytes.length`. -/
def le32 (bytes : List UInt8) (j : Nat) : Nat :=
  (bytes.getD j 0).toNat
    + 256 * (bytes.getD (j+1) 0).toNat
    + 65536 * (bytes.getD (j+2) 0).toNat
    + 16777216 * (bytes.getD (j+3) 0).toNat

/-- Hexadecimal digit table used to render unknown opcodes. -/
def hexDigit (n : Nat) : String :=
  (["0","1","2","3","4","5","6","7","8","9","a","b","c","d","e","f"]).getD n "0"

/-- Rendering of `format!("ext:{:#04x}", opcode)` for an unknown opcode. -/
def hexByte (b : UInt8) : String :=
  "ext:0x" ++ hexDigit (b.toNat / 16) ++ hexDigit (b.toNat % 16)

/-- The argument discipline of an opcode in the source `match`: `plain`
opcodes carry no trailing argument; `le32arg` opcodes (`Dup`, `Roll`,
`Output`, `Contract`, `InputCoin`, `OutputCoin`) read a 4-byte little-endian
argument; `le32data` opcodes (`Push`, `Program`) additionally skip a data
blob of the decoded length. -/
inductive ArgKind
  | plain
  | le32arg
  | le32data
deriving DecidableEq

/-- The closed opcode table of `decode_program_opcodes`: one entry per arm of
the source `match opcode` (tags `0x08`, `0x09`, `0x18` and everything above
`0x23` are absent and fall through to the `ext:` fallback). -/
def opcodeTable : List (Nat × String × ArgKind) :=
  [ (0x00, "push", .le32data), (0x01, "program", .le32data),
    (0x02, "drop", .plain), (0x03, "dup", .le32arg), (0x04, "roll", .le32arg),
    (0x05, "scalar", .plain), (0x06, "commit", .plain), (0x07, "alloc", .plain),
    (0x0a, "expr", .plain), (0x0b, "neg", .plain), (0x0c, "add", .plain),
    (0x0d, "mul", .plain), (0x0e, "eq", .plain), (0x0f, "range", .plain),
    (0x10, "and", .plain), (0x11, "or", .plain), (0x12, "not", .plain),
    (0x13, "verify", .plain), (0x14, "unblind", .plain), (0x15, "issue", .plain),
    (0x16, "borrow", .plain), (0x17, "retire", .plain), (0x19, "fee", .plain),
    (0x1a, "input", .plain), (0x1b, "output", .le32arg), (0x1c, "contract", .le32arg),
    (0x1d, "log", .plain), (0x1e, "call", .plain), (0x1f, "signtx", .plain),
    (0x20, "signid", .plain), (0x21, "signtag", .plain),
    (0x22, "inputcoin", .le32arg), (0x23, "outputcoin", .le32arg) ]

/-- One iteration of the `while i < bytes.len()` body of
`decode_program_opcodes`, after the opcode tag has been consumed: `j` is the
cursor position just past the tag (Rust's `i` after `i += 1`).  Returns the
mnemonic pushed and the cursor position for the next iteration.  The source
repeats the identical `if i + 4 <= bytes.len()` block inline in each
argument-carrying arm; the embedding factors those textual repetitions
through `ArgKind`, branch for branch. -/
def opStep (bytes : List UInt8) (j : Nat) (opcode : UInt8) : String × Nat :=
  match opcodeTable.find? (fun e => e.1 == opcode.toNat) with
  | some (_, mnem, ArgKind.plain) => (mnem, j)
  | some (_, mnem, ArgKind.le32arg) =>
    if j + 4 ≤ bytes.length then
      (mnem ++ ":" ++ toString (le32 bytes j), j + 4)
    else (mnem, j)
  | some (_, mnem, ArgKind.le32data) =>
    if j + 4 ≤ bytes.length then
      (mnem ++ ":" ++ toString (le32 bytes j), j + 4 + le32 bytes j)
    else (mnem, j)
  | none => (hexByte opcode, j)

/-- The cursor never moves backwards: every arm of `opStep` returns a next
position `≥ j`. -/
theorem opStep_snd_ge (bytes : List UInt8) (j : Nat) (opcode : UInt8) :
    j ≤ (opStep bytes j opcode).2 := by
  unfold opStep
  rcases hfind : opcodeTable.find? (fun e => e.1 == opcode.toNat)
    with _ | ⟨t, mnem, k⟩
  · rw [hfind]
  · rw [hfind]
    cases k
    · exact Nat.le_refl j
    · dsimp only
      by_cases hc : j + 4 ≤ bytes.length
      · rw [if_pos hc]; dsimp only; omega
      · rw [if_neg hc]
    · dsimp only
      by_cases hc : j + 4 ≤ bytes.length
      · rw [if_pos hc]; dsimp only; omega
      · rw [if_neg hc]

/-- The `while i < bytes.len()` loop of `decode_program_opcodes`: consume one
opcode per iteration, pushing one mnemonic.  `fuel` bounds the number of
iterations to make the function structurally recursive; it is irrelevant as
soon as `bytes.length - i ≤ fuel` (`decodeLoop_fuel_irrel`), which always
holds at the call site in `decode_program_opcodes`, because the cursor
strictly increases each iteration exactly as in the source loop. -/
def decodeLoop (bytes : List UInt8) (fuel : Nat) (i : Nat) : List String :=
  match fuel with
  | 0 => []
  | fuel + 1 =>
    if i < bytes.length then
      (opStep bytes (i+1) (bytes.getD i 0)).1
        :: decodeLoop bytes fuel (opStep bytes (i+1) (bytes.getD i 0)).2
    else []

/-- `decode_program_opcodes` from `src/api.rs` (lines 193–319), acting on the
byte buffer extracted from the JSON program value. -/
def decode_program_opcodes (bytes : List UInt8) : List String :=
  decodeLoop bytes bytes.length 0

/-- Any sufficient fuel computes the same instruction list, so the fuel in
`decodeLoop` is an encoding artifact, not a semantic bound: the loop exits
because the cursor passes the end of the buffer, never because fuel runs
out. -/
theorem decodeLoop_fuel_irrel (bytes : List UInt8) :
    ∀ fuel fuel' i, bytes.length - i ≤ fuel → bytes.length - i ≤ fuel' →
      decodeLoop bytes fuel i = decodeLoop bytes fuel' i := by
  intro fuel
  induction fuel with
  | zero =>
    intro fuel' i h h'
    cases fuel' with
    | zero => rfl
    | succ f' =>
      simp only [decodeLoop]
      rw [if_neg (by omega)]
  | succ f ih =>
    intro fuel' i h h'
    cases fuel' with
    | zero =>
      simp only [decodeLoop]
      rw [if_neg (by omega)]
    | succ f' =>
      simp only [decodeLoop]
      by_cases hi : i < bytes.length
      · rw [if_pos hi, if_pos hi]
        have hg := opStep_snd_ge bytes (i+1) (bytes.getD i 0)
        rw [ih f' _ (by omega) (by omega)]
      · rw [if_neg hi, if_neg hi]

example : decode_program_opcodes [] = [] := by decide
example : decode_program_opcodes [0x02, 0x05] = ["drop", "scalar"] := by decide
example : decode_program_opcodes [0x03, 1, 0, 0, 0, 0x02] = ["dup:1", "drop"] := by
  decide
example : decode_program_opcodes [0x00, 0x02] = ["push", "drop"] := by decide
example : decode_program_opcodes [0x00, 1, 0, 0, 0, 9, 0x02] = ["push:1", "drop"] := by
  decide
example : decode_program_opcodes [0x42] = ["ext:0x42"] := by decide

/-- Whether an opcode carries a trailing 4-byte little-endian argument
(`Push`, `Program`, `Dup`, `Roll`, `Output`, `Contract`, `InputCoin`,
`OutputCoin` in the source `match`). -/
def hasLe32Arg (b : UInt8) : Bool :=
  match opcodeTable.find? (fun e => e.1 == b.toNat) with
  | some (_, _, ArgKind.le32arg) => true
  | some (_, _, ArgKind.le32data) => true
  | _ => false

/-- The bare mnemonic the source emits for an opcode whose argument is
truncated (the `else` arm of each `if i + 4 <= bytes.len()`). -/
def bareMnemonic (b : UInt8) : String :=
  match opcodeTable.find? (fun e => e.1 == b.toNat) with
  | some (_, mnem, _) => mnem
  | none => hexByte b

/-- When fewer than 4 bytes remain after the tag of an argument-carrying
opcode, the step emits the bare mnemonic and consumes no argument bytes. -/
theorem opStep_truncated (bytes : List UInt8) (j : Nat) (b : UInt8)
    (h : hasLe32Arg b = true) (hlen : bytes.length < j + 4) :
    opStep bytes j b = (bareMnemonic b, j) := by
  unfold opStep bareMnemonic
  unfold hasLe32Arg at h
  rcases hfind : opcodeTable.find? (fun e => e.1 == b.toNat)
    with _ | ⟨t, mnem, k⟩ <;> rw [hfind] at h ⊢
  cases k
  · simp at h
  · dsimp only; rw [if_neg (by omega)]
  · dsimp only; rw [if_neg (by omega)]

/-- Each loop iteration emits exactly one mnemonic and advances the cursor by
at least one byte, so the instruction list is never longer than the part of
the buffer still ahead of the cursor. -/
theorem decodeLoop_length_le (bytes : List UInt8) :
    ∀ fuel i, (decodeLoop bytes fuel i).length ≤ bytes.length - i := by
  intro fuel
  induction fuel with
  | zero => intro i; simp [decodeLoop]
  | succ f ih =>
    intro i
    simp only [decodeLoop]
    by_cases hi : i < bytes.length
    · rw [if_pos hi]
      have hg := opStep_snd_ge bytes (i+1) (bytes.getD i 0)
      have := ih (opStep bytes (i+1) (bytes.getD i 0)).2
      simp only [List.length_cons]
      omega
    · rw [if_neg hi]; simp

/-- C5: for every byte buffer (including empty, truncated, and adversarially
short buffers), the program disassembler terminates (it is a total function,
structurally recursive on a fuel that `decodeLoop_fuel_irrel` shows never
binds), never indexes past the buffer length (every 4-byte read is behind the
same `i + 4 ≤ bytes.length` guard as the source, so the `getD` defaults are
unreachable), and returns a sequence of instruction strings whose length is
at most the buffer length. -/
theorem C5_disassembler_cursor_safety (bytes : List UInt8) :
    (decode_program_opcodes bytes).length ≤ bytes.length := by
  have := decodeLoop_length_le bytes bytes.length 0
  simpa [decode_program_opcodes] using this

/-- C9 counterexample: in the buffer `[0x00, 0x02]` the argument-carrying
opcode `0x00` (`Push`) occurs at position 0 with only 1 byte remaining after
its tag (fewer than 4), yet disassembly does not stop there: the decoder
emits the bare `"push"` and then continues, decoding the following byte as a
further instruction (`"drop"`), for a total of 2 instructions where the claim
allows at most the one at the truncation point. -/
theorem C9_counterexample :
    decode_program_opcodes [0x00, 0x02] = ["push", "drop"] ∧
    1 < (decode_program_opcodes [0x00, 0x02]).length := by decide

/-- C9 (amended): for every byte buffer in which an opcode that carries a
trailing 4-byte little-endian argument occurs with fewer than 4 bytes
remaining after the opcode tag, the decoder emits the opcode's bare mnemonic
without consuming any argument bytes, and disassembly continues with the next
byte treated as a fresh opcode — the truncated trailing data is not an
error. -/
theorem C9_truncated_arg_continues (bytes : List UInt8) (fuel i : Nat)
    (hi : i < bytes.length)
    (harg : hasLe32Arg (bytes.getD i 0) = true)
    (hshort : bytes.length < i + 5) :
    decodeLoop bytes (fuel + 1) i
      = bareMnemonic (bytes.getD i 0) :: decodeLoop bytes fuel (i + 1) := by
  simp only [decodeLoop]
  rw [if_pos hi, opStep_truncated bytes (i+1) _ harg (by omega)]

/-- Witness for C9 (amended) at the concrete buffer `[0x00, 0x02]`. -/
theorem C9_truncated_arg_continues_witness :
    (0 < ([0x00, 0x02] : List UInt8).length
      ∧ hasLe32Arg (([0x00, 0x02] : List UInt8).getD 0 0) = true
      ∧ ([0x00, 0x02] : List UInt8).length < 0 + 5)
    ∧ decodeLoop [0x00, 0x02] (1 + 1) 0
        = bareMnemonic (([0x00, 0x02] : List UInt8).getD 0 0)
            :: decodeLoop [0x00, 0x02] 1 (0 + 1) :=
  ⟨⟨by decide, by decide, by decide⟩,
    C9_truncated_arg_continues [0x00, 0x02] 1 0 (by decide) (by decide)
      (by decide)⟩

/-! ## Persistence gateway (`src/db.rs`, conflict keys from `src/schema.rs`)

Each table is a list of rows in insertion order; each `insert_*` function
mirrors the corresponding diesel statement: `on_conflict(key).do_nothing()`
inserts only when no row with the same key exists, and
`on_conflict(key).do_update().set(amount.eq(amount + delta))` adds the delta
to the conflicting row's amount (all other columns keep their first-insert
values).  The `PgConnection` is out of scope; connection failures are
injected by the `DbEnv` oracle at the call sites in the fact extractor. -/

/-- Row of `transactions` (primary key `(t_address, block)`). -/
structure TransactionsRow where
  t_address : String
  block : Int
deriving DecidableEq, Repr

/-- Row of `funds_moved` (primary key `(t_address, denom, block)`). -/
structure FundsMovedRow where
  t_address : String
  amount : Int
  denom : String
  block : Int
deriving DecidableEq, Repr

/-- Row shape shared by `dark_minted_sats` and `dark_burned_sats`
(primary key `(t_address)` alone in `src/schema.rs`). -/
structure DarkSatsRow where
  t_address : String
  q_address : String
  amount : Int
  block : Int
deriving DecidableEq, Repr

/-- Row shape shared by `lit_minted_sats` and `lit_burned_sats`
(primary key `(t_address)`). -/
structure LitSatsRow where
  t_address : String
  amount : Int
  block : Int
deriving DecidableEq, Repr

/-- Row of `addr_mappings` (primary key `(t_address, q_address)`). -/
structure AddrMappingsRow where
  t_address : String
  q_address : String
  block : Int
deriving DecidableEq, Repr

/-- Row of `gas_used_nyks` (primary key `(t_address, block)` in the schema;
the insert's conflict target is `(t_address, denom, block)`). -/
structure GasUsedRow where
  t_address : String
  gas_amount : Int
  denom : String
  block : Int
deriving DecidableEq, Repr

/-- Row of `qq_tx` (primary key `(tx_hash, block)`).  `tx_hash` is the SHA-256
digest of the serialized transaction; the digest function is an out-of-scope
cryptographic primitive, represented here by the serialized content itself
(content-addressing keys equal contents identically either way). -/
structure QQTxRow where
  tx_hash : String
  tx : String
  block : Int
deriving DecidableEq, Repr

/-- Row shape shared by `trading_tx`, `order_open_tx` and `order_close_tx`
(primary key `(to_address, from_address, block)`). -/
structure ToFromRow where
  to_address : String
  from_address : String
  block : Int
deriving DecidableEq, Repr

/-- The storage backend: one list of rows per table of `src/schema.rs`. -/
structure Db where
  transactions : List TransactionsRow
  funds_moved : List FundsMovedRow
  dark_burned_sats : List DarkSatsRow
  dark_minted_sats : List DarkSatsRow
  lit_minted_sats : List LitSatsRow
  lit_burned_sats : List LitSatsRow
  addr_mappings : List AddrMappingsRow
  gas_used_nyks : List GasUsedRow
  qq_tx : List QQTxRow
  trading_tx : List ToFromRow
  order_open_tx : List ToFromRow
  order_close_tx : List ToFromRow
deriving DecidableEq, Repr

/-- The empty database. -/
def Db.empty : Db :=
  ⟨[], [], [], [], [], [], [], [], [], [], [], []⟩

/-- Rust's `v as i64` for a `u64` value `v < 2^64` (two's-complement wrap). -/
def u64_as_i64 (v : Nat) : Int :=
  if v < 2^63 then (v : Int) else (v : Int) - 2^64

/-- `insert_transaction_count` (db.rs lines 118–135):
`on_conflict((t_address, block)).do_nothing()`. -/
def insert_transaction_count (twilight_address : String) (block_height : Nat)
    (db : Db) : Db :=
  if db.transactions.any (fun r =>
      r.t_address == twilight_address && r.block == u64_as_i64 block_height)
  then db
  else { db with transactions :=
      db.transactions ++ [⟨twilight_address, u64_as_i64 block_height⟩] }

/-- `insert_funds_moved` (db.rs lines 138–157):
`on_conflict((t_address, denom, block)).do_update().set(amount + delta)`. -/
def insert_funds_moved (twilight_address : String) (amount_delta : Int)
    (denom_str : String) (block_height : Nat) (db : Db) : Db :=
  if db.funds_moved.any (fun r =>
      r.t_address == twilight_address && r.denom == denom_str &&
        r.block == u64_as_i64 block_height) then
    { db with funds_moved := db.funds_moved.map (fun r =>
        if r.t_address == twilight_address && r.denom == denom_str &&
            r.block == u64_as_i64 block_height
        then { r with amount := r.amount + amount_delta } else r) }
  else
    { db with funds_moved := db.funds_moved ++
        [⟨twilight_address, amount_delta, denom_str, u64_as_i64 block_height⟩] }

/-- `insert_dark_burned_sats` (db.rs lines 159–177):
`on_conflict(t_address).do_update().set(amount + delta)` — the conflict
target is the address alone. -/
def insert_dark_burned_sats (twilight_address quis_address : String)
    (amount_delta : Int) (block_height : Nat) (db : Db) : Db :=
  if db.dark_burned_sats.any (fun r => r.t_address == twilight_address) then
    { db with dark_burned_sats := db.dark_burned_sats.map (fun r =>
        if r.t_address == twilight_address
        then { r with amount := r.amount + amount_delta } else r) }
  else
    { db with dark_burned_sats := db.dark_burned_sats ++
        [⟨twilight_address, quis_address, amount_delta, u64_as_i64 block_height⟩] }

/-- `insert_dark_minted_sats` (db.rs lines 179–197):
`on_conflict(t_address).do_update().set(amount + delta)` — the conflict
target is the address alone; on conflict only `amount` changes, `q_address`
and `block` keep their first-insert values. -/
def insert_dark_minted_sats (twilight_address quis_address : String)
    (amount_delta : Int) (block_height : Nat) (db : Db) : Db :=
  if db.dark_minted_sats.any (fun r => r.t_address == twilight_address) then
    { db with dark_minted_sats := db.dark_minted_sats.map (fun r =>
        if r.t_address == twilight_address
        then { r with amount := r.amount + amount_delta } else r) }
  else
    { db with dark_minted_sats := db.dark_minted_sats ++
        [⟨twilight_address, quis_address, amount_delta, u64_as_i64 block_height⟩] }

/-- `insert_lit_minted_sats` (db.rs lines 200–217). -/
def insert_lit_minted_sats (twilight_address : String) (amount_delta : Int)
    (block_height : Nat) (db : Db) : Db :=
  if db.lit_minted_sats.any (fun r => r.t_address == twilight_address) then
    { db with lit_minted_sats := db.lit_minted_sats.map (fun r =>
        if r.t_address == twilight_address
        then { r with amount := r.amount + amount_delta } else r) }
  else
    { db with lit_minted_sats := db.lit_minted_sats ++
        [⟨twilight_address, amount_delta, u64_as_i64 block_height⟩] }

/-- `insert_lit_burned_sats` (db.rs lines 220–237). -/
def insert_lit_burned_sats (twilight_address : String) (amount_delta : Int)
    (block_height : Nat) (db : Db) : Db :=
  if db.lit_burned_sats.any (fun r => r.t_address == twilight_address) then
    { db with lit_burned_sats := db.lit_burned_sats.map (fun r =>
        if r.t_address == twilight_address
        then { r with amount := r.amount + amount_delta } else r) }
  else
    { db with lit_burned_sats := db.lit_burned_sats ++
        [⟨twilight_address, amount_delta, u64_as_i64 block_height⟩] }

/-- `insert_addr_mappings` (db.rs lines 239–256):
`on_conflict((t_address, q_address)).do_nothing()`. -/
def insert_addr_mappings (twilight_address quis_address : String)
    (block_height : Nat) (db : Db) : Db :=
  if db.addr_mappings.any (fun r =>
      r.t_address == twilight_address && r.q_address == quis_address)
  then db
  else { db with addr_mappings := db.addr_mappings ++
      [⟨twilight_address, quis_address, u64_as_i64 block_height⟩] }

/-- `get_taddress_for_qaddress` (db.rs lines 258–269): `.first()` on the rows
whose `q_address` matches, in table order. -/
def get_taddress_for_qaddress (quis_address : String) (db : Db) :
    Option String :=
  (db.addr_mappings.find? (fun r => r.q_address == quis_address)).map
    (fun m => m.t_address)

/-- `insert_gas_used` (db.rs lines 283–301):
`on_conflict((t_address, denom, block)).do_update().set(gas_amount + gas)`;
its `height` parameter is already an `i64`. -/
def insert_gas_used (addr : String) (gas : Int) (denom_str : String)
    (height : Int) (db : Db) : Db :=
  if db.gas_used_nyks.any (fun r =>
      r.t_address == addr && r.denom == denom_str && r.block == height) then
    { db with gas_used_nyks := db.gas_used_nyks.map (fun r =>
        if r.t_address == addr && r.denom == denom_str && r.block == height
        then { r with gas_amount := r.gas_amount + gas } else r) }
  else
    { db with gas_used_nyks := db.gas_used_nyks ++ [⟨addr, gas, denom_str, height⟩] }

/-- `insert_qq_tx` (db.rs lines 303–325):
`on_conflict((tx_hash, block)).do_nothing()`; the SHA-256 content hash is
represented by the content string (see `QQTxRow`). -/
def insert_qq_tx (tx_str : String) (block_height : Nat) (db : Db) : Db :=
  if db.qq_tx.any (fun r =>
      r.tx_hash == tx_str && r.block == u64_as_i64 block_height)
  then db
  else { db with qq_tx :=
      db.qq_tx ++ [⟨tx_str, tx_str, u64_as_i64 block_height⟩] }

/-- `insert_trading_tx` (db.rs lines 327–343):
`on_conflict((to_address, from_address, block)).do_nothing()`. -/
def insert_trading_tx (to_addr from_addr : String) (block_height : Nat)
    (db : Db) : Db :=
  if db.trading_tx.any (fun r =>
      r.to_address == to_addr && r.from_address == from_addr &&
        r.block == u64_as_i64 block_height)
  then db
  else { db with trading_tx :=
      db.trading_tx ++ [⟨to_addr, from_addr, u64_as_i64 block_height⟩] }

/-- `insert_order_open_tx` (db.rs lines 345–361). -/
def insert_order_open_tx (to_addr from_addr : String) (block_height : Nat)
    (db : Db) : Db :=
  if db.order_open_tx.any (fun r =>
      r.to_address == to_addr && r.from_address == from_addr &&
        r.block == u64_as_i64 block_height)
  then db
  else { db with order_open_tx :=
      db.order_open_tx ++ [⟨to_addr, from_addr, u64_as_i64 block_height⟩] }

/-- `insert_order_close_tx` (db.rs lines 363–379). -/
def insert_order_close_tx (to_addr from_addr : String) (block_height : Nat)
    (db : Db) : Db :=
  if db.order_close_tx.any (fun r =>
      r.to_address == to_addr && r.from_address == from_addr &&
        r.block == u64_as_i64 block_height)
  then db
  else { db with order_close_tx :=
      db.order_close_tx ++ [⟨to_addr, from_addr, u64_as_i64 block_height⟩] }

theorem insert_transaction_count_idem (a : String) (b : Nat) (db : Db) :
    insert_transaction_count a b (insert_transaction_count a b db)
      = insert_transaction_count a b db := by
  unfold insert_transaction_count
  by_cases h : db.transactions.any
      (fun r => r.t_address == a && r.block == u64_as_i64 b)
  · simp [h]
  · simp [h, List.any_append]

theorem insert_addr_mappings_idem (a q : String) (b : Nat) (db : Db) :
    insert_addr_mappings a q b (insert_addr_mappings a q b db)
      = insert_addr_mappings a q b db := by
  unfold insert_addr_mappings
  by_cases h : db.addr_mappings.any
      (fun r => r.t_address == a && r.q_address == q)
  · simp [h]
  · simp [h, List.any_append]

theorem insert_trading_tx_idem (toA fromA : String) (b : Nat) (db : Db) :
    insert_trading_tx toA fromA b (insert_trading_tx toA fromA b db)
      = insert_trading_tx toA fromA b db := by
  unfold insert_trading_tx
  by_cases h : db.trading_tx.any (fun r =>
      r.to_address == toA && r.from_address == fromA && r.block == u64_as_i64 b)
  · simp [h]
  · simp [h, List.any_append]

theorem insert_order_open_tx_idem (toA fromA : String) (b : Nat) (db : Db) :
    insert_order_open_tx toA fromA b (insert_order_open_tx toA fromA b db)
      = insert_order_open_tx toA fromA b db := by
  unfold insert_order_open_tx
  by_cases h : db.order_open_tx.any (fun r =>
      r.to_address == toA && r.from_address == fromA && r.block == u64_as_i64 b)
  · simp [h]
  · simp [h, List.any_append]

theorem insert_order_close_tx_idem (toA fromA : String) (b : Nat) (db : Db) :
    insert_order_close_tx toA fromA b (insert_order_close_tx toA fromA b db)
      = insert_order_close_tx toA fromA b db := by
  unfold insert_order_close_tx
  by_cases h : db.order_close_tx.any (fun r =>
      r.to_address == toA && r.from_address == fromA && r.block == u64_as_i64 b)
  · simp [h]
  · simp [h, List.any_append]

/-- C7: for the append-only fact types — transaction counts keyed by
`(address, block)`, address↔zk-account mappings keyed by
`(address, zk-account)`, and trading/order-open/order-close logs keyed by
`(to, from, block)` — invoking the insert operation twice with identical
arguments leaves the same stored rows as invoking it once: the duplicate
insert is a no-op on its conflict key and creates no duplicate row. -/
theorem C7_append_only_duplicate_noop (db : Db) (a q toA fromA : String)
    (b : Nat) :
    insert_transaction_count a b (insert_transaction_count a b db)
        = insert_transaction_count a b db
    ∧ insert_addr_mappings a q b (insert_addr_mappings a q b db)
        = insert_addr_mappings a q b db
    ∧ insert_trading_tx toA fromA b (insert_trading_tx toA fromA b db)
        = insert_trading_tx toA fromA b db
    ∧ insert_order_open_tx toA fromA b (insert_order_open_tx toA fromA b db)
        = insert_order_open_tx toA fromA b db
    ∧ insert_order_close_tx toA fromA b (insert_order_close_tx toA fromA b db)
        = insert_order_close_tx toA fromA b db :=
  ⟨insert_transaction_count_idem a b db,
    insert_addr_mappings_idem a q b db,
    insert_trading_tx_idem toA fromA b db,
    insert_order_open_tx_idem toA fromA b db,
    insert_order_close_tx_idem toA fromA b db⟩

/-! ## Domain fact extractor (`src/transaction_types.rs`, `src/quis_quis_tx.rs`)

The extractor is embedded at the level of structurally decoded messages: the
protobuf, base64 and bincode codecs are external (`prost`, `base64`,
`bincode`, the `transaction`/`zkvm` crates), so an `AnyMsg` carries the
already-decoded payload of one `prost_types::Any`, and the inner
confidential transaction carries the outcome the external decoder produces
for its `tx_byte_code`.  Every branch, early return, logged-and-continue
`if let Err`, propagated `?`, and panicking `.expect` of the source is
translated one for one.  Database side effects can fail (a `PgConnection`
error); which call fails is chosen by the `DbEnv` oracle. -/

/-- Rust's `str::parse::<i64>`: optional sign, at least one ASCII digit,
value within `i64` range; anything else is `Err`. -/
def parseI64 (str : String) : Option Int :=
  let readDigits := fun (sign : Int) (digits : List Char) =>
    if digits = [] then none
    else if digits.all (fun d => d.isDigit) then
      let v : Nat := digits.foldl (fun acc d => acc * 10 + (d.toNat - 48)) 0
      let iv : Int := sign * (v : Int)
      if -(2^63) ≤ iv ∧ iv ≤ 2^63 - 1 then some iv else none
    else none
  match str.toList with
  | [] => none
  | c :: rest =>
    if c = '+' then readDigits 1 rest
    else if c = '-' then readDigits (-1) rest
    else readDigits 1 (c :: rest)

example : parseI64 "123" = some 123 := by decide
example : parseI64 "-45" = some (-45) := by decide
example : parseI64 "" = none := by decide
example : parseI64 "12a" = none := by decide
example : parseI64 "notanumber" = none := by decide

/-- `cosmos.base.v1beta1.Coin`: the amount is a decimal string. -/
structure Coin where
  denom : String
  amount : String
deriving DecidableEq, Repr

/-- `cosmos.bank.v1beta1.MsgSend` (the fields the extractor reads). -/
structure MsgSend where
  from_address : String
  to_address : String
  amount : List Coin
deriving DecidableEq, Repr

/-- `twilightproject.nyks.zkos.MsgMintBurnTradingBtc` (fields read by the
extractor). -/
structure MsgMintBurnTradingBtc where
  mint_or_burn : Bool
  btc_value : Nat
  qq_account : String
  twilight_address : String
deriving DecidableEq, Repr

/-- `twilightproject.nyks.bridge.MsgConfirmBtcDeposit` (fields read). -/
structure MsgConfirmBtcDeposit where
  twilight_deposit_address : String
  deposit_amount : Nat
deriving DecidableEq, Repr

/-- `twilightproject.nyks.bridge.MsgWithdrawBtcRequest` (fields read). -/
structure MsgWithdrawBtcRequest where
  twilight_address : String
  withdraw_amount : Nat
deriving DecidableEq, Repr

/-- `zkvm::IOType`: the asset kind tag of a confidential input/output. -/
inductive IOType
  | Coin
  | Memo
  | State
deriving DecidableEq, Repr

/-- The result of `to_quisquis_account()` on an output: the external account
library either derives an account — whose canonical `bincode` serialization
may itself fail (`bincode_hex = none`) — or fails with an error message. -/
structure QQAcct where
  bincode_hex : Option String
deriving DecidableEq, Repr

/-- A confidential-transaction input as the extractor observes it:
its kind tag and the result of `as_owner_address()`. -/
structure QQInput where
  in_type : IOType
  owner_address : Option String
deriving DecidableEq, Repr

instance instDecEqExcept {ε α : Type} [DecidableEq ε] [DecidableEq α] :
    DecidableEq (Except ε α) := fun x y =>
  match x, y with
  | .ok a, .ok b =>
    if h : a = b then isTrue (by rw [h])
    else isFalse (by intro hc; cases hc; exact h rfl)
  | .error a, .error b =>
    if h : a = b then isTrue (by rw [h])
    else isFalse (by intro hc; cases hc; exact h rfl)
  | .ok _, .error _ => isFalse (by intro hc; cases hc)
  | .error _, .ok _ => isFalse (by intro hc; cases hc)

/-- A confidential-transaction output as the extractor observes it:
its kind tag and the result of `to_quisquis_account()`. -/
structure QQOutput where
  out_type : IOType
  to_quisquis_account : Except String QQAcct
deriving DecidableEq, Repr

/-- `transaction::TransactionData`: the three variants of the decoded inner
confidential transaction (`DecodedQQTx` repackages them one to one). -/
inductive TransactionData
  | TransactionTransfer (inputs : List QQInput) (outputs : List QQOutput)
  | TransactionScript (inputs : List QQInput) (outputs : List QQOutput)
  | Message
deriving DecidableEq, Repr

/-- The opaque `tx_byte_code` of a `MsgTransferTx`, carried together with
what the external decoders produce from it: either `decode_transaction`
fails, or it yields a `TransactionData` whose `serde_json` pretty
serialization is `json` (that serialization does not fail on these types). -/
inductive QQByteCode
  | undecodable (errMsg : String)
  | decoded (tx : TransactionData) (json : String)
deriving DecidableEq, Repr

/-- `twilightproject.nyks.zkos.MsgTransferTx` (the extractor only reads
`tx_byte_code`). -/
structure MsgTransferTx where
  txByteCode : QQByteCode
deriving DecidableEq, Repr

/-- One message of a transaction body after its protobuf decode succeeded.
`passthrough` stands for the ~20 recognized staking/gov/distribution/bridge
message types whose dispatch arm only decodes and wraps the message without
touching the database; its optional `signer` is what
`extract_signer_from_any` would return for it. -/
inductive AnyMsg
  | bankSend (m : MsgSend)
  | transferTx (m : MsgTransferTx)
  | mintBurnTradingBtc (m : MsgMintBurnTradingBtc)
  | confirmBtcDeposit (m : MsgConfirmBtcDeposit)
  | withdrawBtcRequest (m : MsgWithdrawBtcRequest)
  | passthrough (type_url : String) (signer : Option String)
  | unknown (type_url : String) (raw_value_hex : String)
deriving DecidableEq, Repr

/-- `StandardCosmosMsg`: the typed envelope returned by the dispatcher,
restricted to the constructors reachable from `AnyMsg`. -/
inductive StandardCosmosMsg
  | BankSend (m : MsgSend)
  | NyksZkosMsgTransferTx (m : MsgTransferTx)
  | NyksZkosMsgMintBurnTradingBtc (m : MsgMintBurnTradingBtc)
  | NyksConfirmBtcDeposit (m : MsgConfirmBtcDeposit)
  | NyksWithdrawBtcRequest (m : MsgWithdrawBtcRequest)
  | Passthrough (type_url : String)
  | Unknown (type_url : String) (raw_value_hex : String)
deriving DecidableEq, Repr

/-- A database side effect of the extractor, identified by operation and
arguments (used by the failure oracle). -/
inductive DbOp
  | transactionCount (addr : String) (block : Nat)
  | fundsMoved (addr : String) (amount : Int) (denom : String) (block : Nat)
  | darkMinted (addr q : String) (amount : Int) (block : Nat)
  | darkBurned (addr q : String) (amount : Int) (block : Nat)
  | litMinted (addr : String) (amount : Int) (block : Nat)
  | litBurned (addr : String) (amount : Int) (block : Nat)
  | addrMappings (addr q : String) (block : Nat)
  | gasUsed (addr : String) (gas : Int) (denom : String) (block : Int)
  | qqTx (tx : String) (block : Nat)
  | tradingTx (toA fromA : String) (block : Nat)
  | orderOpenTx (toA fromA : String) (block : Nat)
  | orderCloseTx (toA fromA : String) (block : Nat)
deriving DecidableEq, Repr

/-- Failure oracle for the storage backend: which insert calls and which
`get_taddress_for_qaddress` lookups return a connection/SQL error. -/
structure DbEnv where
  fail : DbOp → Bool
  failGetTaddr : String → Bool

/-- The environment in which every database call succeeds. -/
def envOk : DbEnv := ⟨fun _ => false, fun _ => false⟩

/-- Mutable state threaded through the extractor: the database and the
emitted log lines (`eprintln!`/`println!`). -/
structure St where
  db : Db
  logs : List String
deriving DecidableEq, Repr

/-- Outcome of a fallible extractor call: `ok`/`err` mirror
`anyhow::Result`, and `panic` is an `.expect` unwinding the thread. -/
inductive PResult (α : Type)
  | ok (a : α) (s : St)
  | err (e : String) (s : St)
  | panic (msg : String)
deriving DecidableEq, Repr

/-- The state reached by a non-panicking outcome. -/
def PResult.stateOf {α : Type} : PResult α → Option St
  | .ok _ s => some s
  | .err _ s => some s
  | .panic _ => none

/-- Apply one insert operation to the database (the success path of the
corresponding db.rs function). -/
def applyDbOp (op : DbOp) (db : Db) : Db :=
  match op with
  | .transactionCount addr block => insert_transaction_count addr block db
  | .fundsMoved addr amount denom block =>
    insert_funds_moved addr amount denom block db
  | .darkMinted addr q amount block =>
    insert_dark_minted_sats addr q amount block db
  | .darkBurned addr q amount block =>
    insert_dark_burned_sats addr q amount block db
  | .litMinted addr amount block => insert_lit_minted_sats addr amount block db
  | .litBurned addr amount block => insert_lit_burned_sats addr amount block db
  | .addrMappings addr q block => insert_addr_mappings addr q block db
  | .gasUsed addr gas denom block => insert_gas_used addr gas denom block db
  | .qqTx tx block => insert_qq_tx tx block db
  | .tradingTx toA fromA block => insert_trading_tx toA fromA block db
  | .orderOpenTx toA fromA block => insert_order_open_tx toA fromA block db
  | .orderCloseTx toA fromA block => insert_order_close_tx toA fromA block db

/-- An `if let Err(e) = insert_*(...) { eprintln!(...) }` site: on oracle
failure the database is untouched and the message is logged; otherwise the
insert is applied.  Control flow continues either way. -/
def runInsertLogged (env : DbEnv) (op : DbOp) (logMsg : String) (s : St) : St :=
  if env.fail op then { s with logs := s.logs ++ [logMsg] }
  else { s with db := applyDbOp op s.db }

/-- `decode_qq_transaction` (quis_quis_tx.rs lines 44–78): decode the inner
binary transaction; on success, serialize it to JSON and archive it via
`insert_qq_tx`, returning `Err` — and so aborting the caller through its `?` —
if either the decode or the archive insert fails.  The informational
`println!` trace lines are not modelled; the `eprintln!` error lines are. -/
def decode_qq_transaction (env : DbEnv) (txByteCode : QQByteCode)
    (block_height : Nat) (s : St) : PResult TransactionData :=
  match txByteCode with
  | .undecodable e =>
    .err e { s with logs := s.logs ++
      ["decode_qq_transaction: decode_transaction failed: " ++ e] }
  | .decoded t json =>
    if env.fail (.qqTx json block_height) then
      .err "insert_qq_tx failed" { s with logs := s.logs ++
        ["decode_qq_transaction: insert_qq_tx failed"] }
    else
      .ok t { s with db := insert_qq_tx json block_height s.db }

/-- The `for coin in tx.amount` loop of the `MsgSend` arm
(transaction_types.rs lines 202–207): each amount string is parsed with
`.expect("Failed to parse amount string to i64")` — a panic on failure — and
each successfully parsed amount is upserted into `funds_moved` with a logged,
non-aborting error path. -/
def processBankSendCoins (env : DbEnv) (to_address : String)
    (coins : List Coin) (block_height : Nat) (s : St) : Option St :=
  match coins with
  | [] => some s
  | coin :: rest =>
    match parseI64 coin.amount with
    | none => none
    | some amount =>
      let s := runInsertLogged env
        (.fundsMoved to_address amount coin.denom block_height)
        ("Failed to update funds_moved for " ++ to_address) s
      processBankSendCoins env to_address rest block_height s

/-- `decode_standard_any` (transaction_types.rs lines 190–478): dispatch one
decoded message, perform its fact extraction side effects, and return the
typed envelope.  `Err` outcomes correspond to the source's `?` propagations,
`panic` outcomes to its `.expect` calls. -/
def decode_standard_any (env : DbEnv) (msg : AnyMsg) (block_height : Nat)
    (s : St) : PResult StandardCosmosMsg :=
  match msg with
  | .bankSend tx =>
    -- lines 195–209
    let s := runInsertLogged env (.transactionCount tx.from_address block_height)
      ("Failed to update transaction_count for " ++ tx.from_address) s
    match processBankSendCoins env tx.to_address tx.amount block_height s with
    | none => .panic "Failed to parse amount string to i64"
    | some s => .ok (.BankSend tx) s
  | .confirmBtcDeposit tx =>
    -- lines 266–274
    let s := runInsertLogged env
      (.litMinted tx.twilight_deposit_address (u64_as_i64 tx.deposit_amount)
        block_height)
      ("Failed to update transaction for " ++ tx.twilight_deposit_address) s
    .ok (.NyksConfirmBtcDeposit tx) s
  | .withdrawBtcRequest tx =>
    -- lines 285–291
    let s := runInsertLogged env
      (.litBurned tx.twilight_address (u64_as_i64 tx.withdraw_amount)
        block_height)
      ("Failed to update transaction for " ++ tx.twilight_address) s
    .ok (.NyksWithdrawBtcRequest tx) s
  | .transferTx m =>
    -- lines 329–448; `decode_qq_transaction(&cosmos_tx.tx_byte_code, ...)?`
    match decode_qq_transaction env m.txByteCode block_height s with
    | .err e s => .err e s
    | .panic msg => .panic msg
    | .ok t s =>
      match t with
      | .TransactionTransfer inputs outputs =>
        -- lines 333–375
        match inputs, outputs with
        | [], _ =>
          .ok (.NyksZkosMsgTransferTx m) { s with logs := s.logs ++
            ["TransferTransaction has no inputs or outputs"] }
        | _, [] =>
          .ok (.NyksZkosMsgTransferTx m) { s with logs := s.logs ++
            ["TransferTransaction has no inputs or outputs"] }
        | i0 :: _, o0 :: _ =>
          match i0.owner_address with
          | none =>
            .ok (.NyksZkosMsgTransferTx m) { s with logs := s.logs ++
              ["Failed to get owner address from input"] }
          | some owner =>
            match o0.to_quisquis_account with
            | .error _ => .panic "Failed to convert to quisquis account"
            | .ok acct =>
              match acct.bincode_hex with
              | none => .panic "Failed to serialize account to bytes"
              | some new_qq_account =>
                if env.failGetTaddr owner then
                  .err "get_taddress_for_qaddress failed" s
                else
                  match get_taddress_for_qaddress owner s.db with
                  | none => .ok (.NyksZkosMsgTransferTx m) s
                  | some t_address =>
                    let s := runInsertLogged env
                      (.addrMappings t_address new_qq_account block_height)
                      ("Failed to update addr_mappings for " ++ t_address) s
                    let s := runInsertLogged env
                      (.transactionCount t_address block_height)
                      ("Failed to update transaction_count for " ++ t_address) s
                    let s :=
                      if i0.in_type = IOType.Coin ∧ o0.out_type = IOType.Memo
                      then runInsertLogged env
                        (.tradingTx new_qq_account owner block_height)
                        ("Failed to update trading tx for " ++ new_qq_account) s
                      else s
                    .ok (.NyksZkosMsgTransferTx m) s
      | .TransactionScript inputs outputs =>
        -- lines 376–442
        match inputs, outputs with
        | [], _ =>
          .ok (.NyksZkosMsgTransferTx m) { s with logs := s.logs ++
            ["ScriptTransaction has no inputs or outputs"] }
        | _, [] =>
          .ok (.NyksZkosMsgTransferTx m) { s with logs := s.logs ++
            ["ScriptTransaction has no inputs or outputs"] }
        | i0 :: _, o0 :: _ =>
          match i0.owner_address with
          | none =>
            .ok (.NyksZkosMsgTransferTx m) { s with logs := s.logs ++
              ["Failed to get owner address from input"] }
          | some owner =>
            match o0.to_quisquis_account with
            | .error e =>
              .ok (.NyksZkosMsgTransferTx m) { s with logs := s.logs ++
                ["Failed to convert output to quisquis account: " ++ e] }
            | .ok acct =>
              match acct.bincode_hex with
              | none => .panic "Failed to serialize account to bytes"
              | some new_qq_account =>
                let is_order_open :=
                  i0.in_type = IOType.Coin ∧ o0.out_type = IOType.Memo
                let is_order_close :=
                  i0.in_type = IOType.Memo ∧ o0.out_type = IOType.Coin
                let s :=
                  if is_order_open then runInsertLogged env
                    (.orderOpenTx new_qq_account owner block_height)
                    ("Failed to insert order_open_tx for " ++ new_qq_account) s
                  else s
                let s :=
                  if is_order_close then runInsertLogged env
                    (.orderCloseTx new_qq_account owner block_height)
                    ("Failed to insert order_close_tx for " ++ new_qq_account) s
                  else s
                let s :=
                  if ¬ is_order_open ∧ ¬ is_order_close then { s with logs :=
                    s.logs ++
                      ["Script TX did not match order_open or order_close conditions"] }
                  else s
                .ok (.NyksZkosMsgTransferTx m) s
      | .Message =>
        -- lines 443–445: informational print only
        .ok (.NyksZkosMsgTransferTx m) s
  | .mintBurnTradingBtc tx =>
    -- lines 450–471
    let s :=
      if tx.mint_or_burn then
        let s := runInsertLogged env
          (.darkMinted tx.twilight_address tx.qq_account
            (u64_as_i64 tx.btc_value) block_height)
          ("Failed to update dark minted sats for " ++ tx.twilight_address) s
        runInsertLogged env
          (.addrMappings tx.twilight_address tx.qq_account block_height)
          ("Failed to update addr_mappings for " ++ tx.twilight_address) s
      else
        runInsertLogged env
          (.darkBurned tx.twilight_address tx.qq_account
            (u64_as_i64 tx.btc_value) block_height)
          ("Failed to update dark burned sats for " ++ tx.twilight_address) s
    let s := runInsertLogged env
      (.transactionCount tx.twilight_address block_height)
      ("Failed to update transaction_count for " ++ tx.twilight_address) s
    .ok (.NyksZkosMsgMintBurnTradingBtc tx) s
  | .passthrough type_url _ => .ok (.Passthrough type_url) s
  | .unknown type_url raw_value_hex => .ok (.Unknown type_url raw_value_hex) s

/-- The message loop of `decode_tx_base64_standard` (transaction_types.rs
lines 166–169): `for any in &body.messages { msgs.push(decode_standard_any
(any, block_height)?); }` — the `?` aborts the remaining messages of the
same transaction on the first `Err`. -/
def decode_tx_messages (env : DbEnv) (msgs : List AnyMsg) (block_height : Nat)
    (s : St) : PResult (List StandardCosmosMsg) :=
  match msgs with
  | [] => .ok [] s
  | m :: rest =>
    match decode_standard_any env m block_height s with
    | .ok v s =>
      match decode_tx_messages env rest block_height s with
      | .ok vs s => .ok (v :: vs) s
      | .err e s => .err e s
      | .panic msg => .panic msg
    | .err e s => .err e s
    | .panic msg => .panic msg

/-- `cosmos.tx.v1beta1.Fee` (only `amount` is read). -/
structure Fee where
  amount : List Coin
deriving DecidableEq, Repr

/-- `cosmos.tx.v1beta1.AuthInfo` (only `fee` is read). -/
structure AuthInfo where
  fee : Option Fee
deriving DecidableEq, Repr

/-- `extract_signer_from_any` (transaction_types.rs lines 90–150) on an
already-decoded message: the signer field for the handled message types;
for the `passthrough` shapes the carried signer reproduces what the source
returns for the staking/gov/bridge messages it recognizes. -/
def extract_signer_from_any (m : AnyMsg) : Option String :=
  match m with
  | .bankSend tx => some tx.from_address
  | .confirmBtcDeposit tx => some tx.twilight_deposit_address
  | .withdrawBtcRequest tx => some tx.twilight_address
  | .mintBurnTradingBtc tx => some tx.twilight_address
  | .passthrough _ signer => signer
  | _ => none

/-- `decode_tx_base64_standard` (transaction_types.rs lines 153–188), from
the point where the outer base64/protobuf layers (external codecs) have
yielded the body messages and auth info: extract the first message's signer,
run the message loop (whose `?` propagates the first `Err`), then record gas
for the first fee coin when it parses — `if let Ok(gas_amount)`, so an
unparseable gas amount is skipped, not a panic. -/
def decode_tx_base64_standard (env : DbEnv) (body_messages : List AnyMsg)
    (auth : AuthInfo) (block_height : Nat) (s : St) :
    PResult (List StandardCosmosMsg) :=
  let signer_address := body_messages.head?.bind extract_signer_from_any
  match decode_tx_messages env body_messages block_height s with
  | .err e s => .err e s
  | .panic m => .panic m
  | .ok msgs s =>
    let s :=
      match auth.fee, signer_address with
      | some fee, some addr =>
        match fee.amount.head? with
        | some coin =>
          match parseI64 coin.amount with
          | some gas_amount => runInsertLogged env
              (.gasUsed addr gas_amount coin.denom (u64_as_i64 block_height))
              ("Failed to update gas_used_nyks for " ++ addr) s
          | none => s
        | none => s
      | _, _ => s
    .ok msgs s

/-! ## Observables over the database -/

/-- Total dark-minted amount recorded for an address. -/
def darkMintedTotal (addr : String) (db : Db) : Int :=
  ((db.dark_minted_sats.filter (fun r => r.t_address == addr)).map
    (fun r => r.amount)).sum

/-- Total dark-burned amount recorded for an address. -/
def darkBurnedTotal (addr : String) (db : Db) : Int :=
  ((db.dark_burned_sats.filter (fun r => r.t_address == addr)).map
    (fun r => r.amount)).sum

/-- Whether an address↔zk-account mapping row is stored. -/
def hasAddrMapping (addr q : String) (db : Db) : Bool :=
  db.addr_mappings.any (fun r => r.t_address == addr && r.q_address == q)

/-- Whether a transaction-count row for `(addr, block)` is stored. -/
def hasTransactionCount (addr : String) (block : Nat) (db : Db) : Bool :=
  db.transactions.any (fun r =>
    r.t_address == addr && r.block == u64_as_i64 block)

/-- A table respects its primary key on `addr` when it holds at most one row
for that address (always true of the real `dark_*_sats` tables, whose
primary key is `t_address`). -/
def atMostOneRowFor (addr : String) (l : List DarkSatsRow) : Prop :=
  (l.filter (fun r => r.t_address == addr)).length ≤ 1

instance instDecAtMostOneRowFor (addr : String) (l : List DarkSatsRow) :
    Decidable (atMostOneRowFor addr l) := by
  unfold atMostOneRowFor; infer_instance

/-- Updating amounts commutes with filtering by address, because the update
does not change `t_address`. -/
theorem darkRows_filter_map_update (addr : String) (delta : Int)
    (l : List DarkSatsRow) :
    (l.map (fun r => if r.t_address == addr
        then { r with amount := r.amount + delta } else r)).filter
      (fun r => r.t_address == addr)
    = (l.filter (fun r => r.t_address == addr)).map
        (fun r => if r.t_address == addr
          then { r with amount := r.amount + delta } else r) := by
  induction l with
  | nil => rfl
  | cons r l ih =>
    simp only [List.map_cons, List.filter_cons]
    by_cases hr : (r.t_address == addr) = true
    · rw [if_pos hr]
      dsimp only
      rw [if_pos hr, if_pos hr]
      simp only [List.map_cons, List.filter_cons]
      rw [if_pos hr, ih]
    · rw [if_neg hr]
      rw [if_neg hr, if_neg hr, ih]

/-- The in-place accumulate branch adds exactly `delta` to the address's
total when the table respects its key. -/
theorem darkRows_update_sum (addr : String) (delta : Int)
    (l : List DarkSatsRow)
    (hu : atMostOneRowFor addr l)
    (ha : l.any (fun r => r.t_address == addr) = true) :
    (((l.map (fun r => if r.t_address == addr
        then { r with amount := r.amount + delta } else r)).filter
      (fun r => r.t_address == addr)).map (fun r => r.amount)).sum
    = ((l.filter (fun r => r.t_address == addr)).map (fun r => r.amount)).sum
        + delta := by
  rw [darkRows_filter_map_update]
  have h1 : (l.filter (fun r => r.t_address == addr)).length = 1 := by
    rcases List.any_eq_true.mp ha with ⟨x, hx, hkey⟩
    have hmem : x ∈ l.filter (fun r => r.t_address == addr) :=
      List.mem_filter.mpr ⟨hx, hkey⟩
    have := List.length_pos_of_mem hmem
    unfold atMostOneRowFor at hu
    omega
  rcases List.length_eq_one.mp h1 with ⟨x, hx⟩
  have hkey : (x.t_address == addr) = true := by
    have hmem : x ∈ l.filter (fun r => r.t_address == addr) := by
      rw [hx]; exact List.mem_singleton_self x
    exact (List.mem_filter.mp hmem).2
  have heq : x.t_address = addr := by simpa using hkey
  rw [hx]
  simp [heq]

/-- `insert_dark_minted_sats` adds exactly its delta to the address's
dark-minted total. -/
theorem insert_dark_minted_sats_total (addr q : String) (delta : Int)
    (block : Nat) (db : Db)
    (hu : atMostOneRowFor addr db.dark_minted_sats) :
    darkMintedTotal addr (insert_dark_minted_sats addr q delta block db)
      = darkMintedTotal addr db + delta := by
  unfold darkMintedTotal insert_dark_minted_sats
  by_cases ha : db.dark_minted_sats.any (fun r => r.t_address == addr)
  · rw [if_pos ha]
    exact darkRows_update_sum addr delta db.dark_minted_sats hu ha
  · rw [if_neg ha]
    simp [List.filter_append]

/-- `insert_dark_burned_sats` adds exactly its delta to the address's
dark-burned total. -/
theorem insert_dark_burned_sats_total (addr q : String) (delta : Int)
    (block : Nat) (db : Db)
    (hu : atMostOneRowFor addr db.dark_burned_sats) :
    darkBurnedTotal addr (insert_dark_burned_sats addr q delta block db)
      = darkBurnedTotal addr db + delta := by
  unfold darkBurnedTotal insert_dark_burned_sats
  by_cases ha : db.dark_burned_sats.any (fun r => r.t_address == addr)
  · rw [if_pos ha]
    exact darkRows_update_sum addr delta db.dark_burned_sats hu ha
  · rw [if_neg ha]
    simp [List.filter_append]

/-- After `insert_addr_mappings` the mapping row is present. -/
theorem insert_addr_mappings_mem (addr q : String) (block : Nat) (db : Db) :
    hasAddrMapping addr q (insert_addr_mappings addr q block db) = true := by
  unfold hasAddrMapping insert_addr_mappings
  by_cases h : db.addr_mappings.any (fun r =>
      r.t_address == addr && r.q_address == q)
  · simp only [if_pos h]; exact h
  · simp [h, List.any_append]

/-- After `insert_transaction_count` the count row is present. -/
theorem insert_transaction_count_mem (addr : String) (block : Nat) (db : Db) :
    hasTransactionCount addr block (insert_transaction_count addr block db)
      = true := by
  unfold hasTransactionCount insert_transaction_count
  by_cases h : db.transactions.any (fun r =>
      r.t_address == addr && r.block == u64_as_i64 block)
  · simp only [if_pos h]; exact h
  · simp [h, List.any_append]

theorem insert_dark_minted_sats_other (addr q : String) (delta : Int)
    (block : Nat) (db : Db) :
    (insert_dark_minted_sats addr q delta block db).dark_burned_sats
        = db.dark_burned_sats
    ∧ (insert_dark_minted_sats addr q delta block db).addr_mappings
        = db.addr_mappings
    ∧ (insert_dark_minted_sats addr q delta block db).transactions
        = db.transactions := by
  unfold insert_dark_minted_sats; split <;> exact ⟨rfl, rfl, rfl⟩

theorem insert_dark_burned_sats_other (addr q : String) (delta : Int)
    (block : Nat) (db : Db) :
    (insert_dark_burned_sats addr q delta block db).dark_minted_sats
        = db.dark_minted_sats
    ∧ (insert_dark_burned_sats addr q delta block db).addr_mappings
        = db.addr_mappings
    ∧ (insert_dark_burned_sats addr q delta block db).transactions
        = db.transactions := by
  unfold insert_dark_burned_sats; split <;> exact ⟨rfl, rfl, rfl⟩

theorem insert_addr_mappings_other (addr q : String) (block : Nat) (db : Db) :
    (insert_addr_mappings addr q block db).dark_minted_sats
        = db.dark_minted_sats
    ∧ (insert_addr_mappings addr q block db).dark_burned_sats
        = db.dark_burned_sats
    ∧ (insert_addr_mappings addr q block db).transactions
        = db.transactions := by
  unfold insert_addr_mappings; split <;> exact ⟨rfl, rfl, rfl⟩

theorem insert_transaction_count_other (addr : String) (block : Nat)
    (db : Db) :
    (insert_transaction_count addr block db).dark_minted_sats
        = db.dark_minted_sats
    ∧ (insert_transaction_count addr block db).dark_burned_sats
        = db.dark_burned_sats
    ∧ (insert_transaction_count addr block db).addr_mappings
        = db.addr_mappings := by
  unfold insert_transaction_count; split <;> exact ⟨rfl, rfl, rfl⟩

/-- C6 counterexample: the dark-minted accumulator is NOT keyed by
`(address, zk-account)` — its conflict target is the address alone.  Starting
from a table holding the row `("a", "q1", 5, 1)` and processing a
`MsgMintBurnTradingBtc` that mints 7 sats for address `"a"` under the
DIFFERENT zk-account `"q2"`, the 7 sats are merged into the existing
`("a", "q1")` row (amount 12) and no row mentioning `"q2"` exists afterwards,
whereas accumulation keyed by `(address, zk-account)` would have produced a
separate `("a", "q2")` entry. -/
theorem C6_counterexample :
    ((decode_standard_any envOk
        (.mintBurnTradingBtc ⟨true, 7, "q2", "a"⟩) 2
        ⟨{ Db.empty with dark_minted_sats := [⟨"a", "q1", 5, 1⟩] }, []⟩).stateOf.map
      (fun s => (s.db.dark_minted_sats,
        s.db.dark_minted_sats.any (fun r => r.q_address == "q2"))))
      = some ([⟨"a", "q1", 12, 1⟩], false) := by decide

/-- C6 (amended): for every `MsgMintBurnTradingBtc` message: if it mints, the
dark-minted amount accumulates under the key `(address)` alone (the
zk-account is stored with the first insert but is not part of the conflict
key) and an address↔zk-account mapping row is inserted; if it burns, the
dark-burned amount accumulates likewise under `(address)` (with no mapping
insert); in both cases a transaction-count row for the address at the block
is inserted, and the handler returns the typed message.  Stated under a
database respecting the accumulator's primary key and an oracle that lets
this message's inserts succeed. -/
theorem C6_mint_burn_facts (env : DbEnv) (tx : MsgMintBurnTradingBtc)
    (block : Nat) (db : Db) (logs : List String)
    (humint : atMostOneRowFor tx.twilight_address db.dark_minted_sats)
    (huburn : atMostOneRowFor tx.twilight_address db.dark_burned_sats)
    (hfm : env.fail (.darkMinted tx.twilight_address tx.qq_account
      (u64_as_i64 tx.btc_value) block) = false)
    (hfb : env.fail (.darkBurned tx.twilight_address tx.qq_account
      (u64_as_i64 tx.btc_value) block) = false)
    (hfa : env.fail (.addrMappings tx.twilight_address tx.qq_account block)
      = false)
    (hfc : env.fail (.transactionCount tx.twilight_address block) = false) :
    ∃ s' : St,
      decode_standard_any env (.mintBurnTradingBtc tx) block ⟨db, logs⟩
        = .ok (.NyksZkosMsgMintBurnTradingBtc tx) s'
      ∧ (tx.mint_or_burn = true →
          darkMintedTotal tx.twilight_address s'.db
              = darkMintedTotal tx.twilight_address db + u64_as_i64 tx.btc_value
          ∧ hasAddrMapping tx.twilight_address tx.qq_account s'.db = true
          ∧ s'.db.dark_burned_sats = db.dark_burned_sats)
      ∧ (tx.mint_or_burn = false →
          darkBurnedTotal tx.twilight_address s'.db
              = darkBurnedTotal tx.twilight_address db + u64_as_i64 tx.btc_value
          ∧ s'.db.dark_minted_sats = db.dark_minted_sats
          ∧ s'.db.addr_mappings = db.addr_mappings)
      ∧ hasTransactionCount tx.twilight_address block s'.db = true := by
  unfold decode_standard_any runInsertLogged applyDbOp
  cases hmb : tx.mint_or_burn
  · -- burn
    simp only [hmb, if_neg (Bool.false_ne_true), hfb, hfc, Bool.false_eq_true,
      if_false]
    refine ⟨_, rfl, ?_, ?_, ?_⟩
    · intro h; cases h
    · intro _
      refine ⟨?_, ?_, ?_⟩
      · unfold darkBurnedTotal
        rw [(insert_transaction_count_other _ _ _).2.1]
        exact insert_dark_burned_sats_total _ tx.qq_account _ block db huburn
      · rw [(insert_transaction_count_other _ _ _).1,
          (insert_dark_burned_sats_other _ _ _ _ _).1]
      · rw [(insert_transaction_count_other _ _ _).2.2,
          (insert_dark_burned_sats_other _ _ _ _ _).2.1]
    · exact insert_transaction_count_mem _ _ _
  · -- mint
    simp only [hmb, if_pos, hfm, hfa, hfc, Bool.false_eq_true, if_false,
      if_true]
    refine ⟨_, rfl, ?_, ?_, ?_⟩
    · intro _
      refine ⟨?_, ?_, ?_⟩
      · unfold darkMintedTotal
        rw [(insert_transaction_count_other _ _ _).1,
          (insert_addr_mappings_other _ _ _ _).1]
        exact insert_dark_minted_sats_total _ tx.qq_account _ block db humint
      · unfold hasAddrMapping
        rw [(insert_transaction_count_other _ _ _).2.2]
        have h2 := insert_addr_mappings_mem tx.twilight_address tx.qq_account
          block (insert_dark_minted_sats tx.twilight_address tx.qq_account
            (u64_as_i64 tx.btc_value) block db)
        unfold hasAddrMapping at h2
        exact h2
      · rw [(insert_transaction_count_other _ _ _).2.1,
          (insert_addr_mappings_other _ _ _ _).2.1,
          (insert_dark_minted_sats_other _ _ _ _ _).1]
    · intro h; cases h
    · exact insert_transaction_count_mem _ _ _

/-- Witness for C6 (amended) at a concrete minting message on the empty
database with the all-success oracle. -/
theorem C6_mint_burn_facts_witness :
    (atMostOneRowFor "a" Db.empty.dark_minted_sats
      ∧ atMostOneRowFor "a" Db.empty.dark_burned_sats
      ∧ envOk.fail (.darkMinted "a" "q2" (u64_as_i64 7) 2) = false
      ∧ envOk.fail (.transactionCount "a" 2) = false)
    ∧ ∃ s' : St,
      decode_standard_any envOk
          (.mintBurnTradingBtc ⟨true, 7, "q2", "a"⟩) 2 ⟨Db.empty, []⟩
        = .ok (.NyksZkosMsgMintBurnTradingBtc ⟨true, 7, "q2", "a"⟩) s'
      ∧ ((⟨true, 7, "q2", "a"⟩ : MsgMintBurnTradingBtc).mint_or_burn = true →
          darkMintedTotal "a" s'.db = darkMintedTotal "a" Db.empty + u64_as_i64 7
          ∧ hasAddrMapping "a" "q2" s'.db = true
          ∧ s'.db.dark_burned_sats = Db.empty.dark_burned_sats)
      ∧ ((⟨true, 7, "q2", "a"⟩ : MsgMintBurnTradingBtc).mint_or_burn = false →
          darkBurnedTotal "a" s'.db = darkBurnedTotal "a" Db.empty + u64_as_i64 7
          ∧ s'.db.dark_minted_sats = Db.empty.dark_minted_sats
          ∧ s'.db.addr_mappings = Db.empty.addr_mappings)
      ∧ hasTransactionCount "a" 2 s'.db = true :=
  ⟨⟨by decide, by decide, by decide, by decide⟩,
    C6_mint_burn_facts envOk ⟨true, 7, "q2", "a"⟩ 2 Db.empty []
      (by decide) (by decide) (by decide) (by decide) (by decide) (by decide)⟩

/-! ## C2: the two panicking decode paths -/

/-- Whether a `PResult` is a successful return. -/
def isOkResult {α : Type} : PResult α → Bool
  | .ok _ _ => true
  | _ => false

/-- C2: the claim that "for every input, processing a bank-send message whose
coin amount string does not parse as a 64-bit integer, or a confidential
Transfer output that cannot be converted or serialized to a zk-account, does
not abort the process" is contradicted by the code: both paths run
`.expect(...)` (transaction_types.rs line 203 and lines 348–355), which
panics — terminating the indexer thread and with it the ingestion loop —
instead of logging and continuing as every other error path in the same
function does.  This theorem evaluates the embedded dispatcher at the two
failing inputs and observes the panic outcomes. -/
theorem C2_panic_on_bad_amount_and_output :
    decode_standard_any envOk
        (.bankSend ⟨"alice", "bob", [⟨"nyks", "notanumber"⟩]⟩) 5
        ⟨Db.empty, []⟩
      = .panic "Failed to parse amount string to i64"
    ∧ decode_standard_any envOk
        (.transferTx ⟨.decoded (.TransactionTransfer
            [⟨IOType.Coin, some "qq_old"⟩]
            [⟨IOType.Memo, .error "bad output"⟩]) "json1"⟩) 5
        ⟨Db.empty, []⟩
      = .panic "Failed to convert to quisquis account" :=
  ⟨by decide, by decide⟩

/-! ## C1: per-fact failures versus the message loop -/

/-- Oracle under which only the raw confidential-transaction archive insert
(`insert_qq_tx`) fails. -/
def envQQFail : DbEnv :=
  ⟨fun op => match op with
    | .qqTx _ _ => true
    | _ => false,
   fun _ => false⟩

/-- C1 counterexample: a persistence error from the raw
confidential-transaction archive insert is logged, but it DOES prevent the
remaining messages of the same transaction: `decode_qq_transaction` returns
`Err` after logging, and the `?` in the message loop of
`decode_tx_base64_standard` (transaction_types.rs line 168) aborts the loop,
so the following bank-send message is never processed — its transaction-count
fact is absent from the error state, although the same two messages under a
non-failing oracle do produce it (second conjunct). -/
theorem C1_counterexample :
    decode_tx_messages envQQFail
        [.transferTx ⟨.decoded .Message "json1"⟩,
          .bankSend ⟨"alice", "bob", []⟩] 5 ⟨Db.empty, []⟩
      = .err "insert_qq_tx failed"
          ⟨Db.empty, ["decode_qq_transaction: insert_qq_tx failed"]⟩
    ∧ ((decode_tx_messages envOk
        [.transferTx ⟨.decoded .Message "json1"⟩,
          .bankSend ⟨"alice", "bob", []⟩] 5 ⟨Db.empty, []⟩).stateOf.map
      (fun s => hasTransactionCount "alice" 5 s.db)) = some true :=
  ⟨by decide, by decide⟩

/-- Oracle failing any chosen subset of the three single-fact upserts of the
Transfer branch (`insert_addr_mappings`, `insert_transaction_count` for the
resolved owner, `insert_trading_tx`) while every other operation succeeds. -/
def envUpsertFail (a b c : Bool) : DbEnv :=
  ⟨fun op => match op with
    | .addrMappings _ _ _ => a
    | .transactionCount addr _ => if addr == "addr1" then b else false
    | .tradingTx _ _ _ => c
    | _ => false,
   fun _ => false⟩

/-- C1 (amended): a failure of one of the single-row fact upserts of a
message (address-mapping, transaction-count, trading-tx) is logged and does
not prevent the remaining facts of that message or the remaining messages of
the transaction — for every subset of those three upserts failing, the
message loop still returns `ok`, the following bank-send message is still
processed (its transaction-count fact lands), and exactly the failed upserts
are logged; but a failure of the raw confidential-transaction archive insert
(or of the mapping lookup) is returned as `Err` from
`decode_qq_transaction`/`decode_standard_any` and aborts the remaining
messages of the same transaction (`C1_counterexample`), with only the
enclosing per-transaction loop of `subscribe_block` continuing. -/
theorem C1_upsert_failures_do_not_abort (a b c : Bool) :
    isOkResult (decode_tx_messages (envUpsertFail a b c)
        [.transferTx ⟨.decoded (.TransactionTransfer
            [⟨IOType.Coin, some "qq_old"⟩]
            [⟨IOType.Memo, .ok ⟨some "qq_new"⟩⟩]) "json1"⟩,
          .bankSend ⟨"alice", "bob", []⟩] 5
        ⟨{ Db.empty with addr_mappings := [⟨"addr1", "qq_old", 0⟩] }, []⟩)
      = true
    ∧ ((decode_tx_messages (envUpsertFail a b c)
        [.transferTx ⟨.decoded (.TransactionTransfer
            [⟨IOType.Coin, some "qq_old"⟩]
            [⟨IOType.Memo, .ok ⟨some "qq_new"⟩⟩]) "json1"⟩,
          .bankSend ⟨"alice", "bob", []⟩] 5
        ⟨{ Db.empty with addr_mappings := [⟨"addr1", "qq_old", 0⟩] }, []⟩).stateOf.map
      (fun s => (hasTransactionCount "alice" 5 s.db,
        s.db.addr_mappings.length,
        s.logs.contains "Failed to update addr_mappings for addr1")))
      = some (true, if a then 1 else 2, a) := by
  cases a <;> cases b <;> cases c <;> exact ⟨by decide, by decide⟩

/-! ## C4 / C8: the confidential Transfer and Script fact extraction -/

theorem insert_qq_tx_other (tx_str : String) (block : Nat) (db : Db) :
    (insert_qq_tx tx_str block db).addr_mappings = db.addr_mappings
    ∧ (insert_qq_tx tx_str block db).transactions = db.transactions
    ∧ (insert_qq_tx tx_str block db).trading_tx = db.trading_tx
    ∧ (insert_qq_tx tx_str block db).order_open_tx = db.order_open_tx
    ∧ (insert_qq_tx tx_str block db).order_close_tx = db.order_close_tx := by
  unfold insert_qq_tx; split <;> exact ⟨rfl, rfl, rfl, rfl, rfl⟩

theorem insert_addr_mappings_trading (addr q : String) (block : Nat)
    (db : Db) :
    (insert_addr_mappings addr q block db).trading_tx = db.trading_tx := by
  unfold insert_addr_mappings; split <;> rfl

theorem insert_transaction_count_trading (addr : String) (block : Nat)
    (db : Db) :
    (insert_transaction_count addr block db).trading_tx = db.trading_tx := by
  unfold insert_transaction_count; split <;> rfl

theorem insert_trading_tx_other (toA fromA : String) (block : Nat) (db : Db) :
    (insert_trading_tx toA fromA block db).addr_mappings = db.addr_mappings
    ∧ (insert_trading_tx toA fromA block db).transactions = db.transactions := by
  unfold insert_trading_tx; split <;> exact ⟨rfl, rfl⟩

/-- A fresh trading row is appended. -/
theorem insert_trading_tx_fresh (toA fromA : String) (b : Nat) (db : Db)
    (h : db.trading_tx.any (fun r =>
      r.to_address == toA && r.from_address == fromA &&
        r.block == u64_as_i64 b) = false) :
    (insert_trading_tx toA fromA b db).trading_tx
      = db.trading_tx ++ [⟨toA, fromA, u64_as_i64 b⟩] := by
  unfold insert_trading_tx
  rw [if_neg (by simp [h])]

/-- C4 counterexample: for the claim's own scenario — first input Coin-kind
owned by zk-account `"qq_old"` which is mapped to t-address `"addr1"`, first
output Memo-kind deriving `"qq_new"` — the single trading-tx row the code
inserts is `(to = "qq_new", from = "qq_old", block = 9)`: its `from` column
holds the input owner's zk-account (`owner` at transaction_types.rs line
371), not the t-address `"addr1"` the claim asserts; no trading row with
`from = "addr1"` exists. -/
theorem C4_counterexample :
    ((decode_standard_any envOk
        (.transferTx ⟨.decoded (.TransactionTransfer
          [⟨IOType.Coin, some "qq_old"⟩]
          [⟨IOType.Memo, .ok ⟨some "qq_new"⟩⟩]) "json1"⟩) 9
        ⟨{ Db.empty with addr_mappings := [⟨"addr1", "qq_old", 0⟩] }, []⟩).stateOf.map
      (fun s => (s.db.trading_tx,
        s.db.trading_tx.any (fun r => r.from_address == "addr1"))))
      = some ([⟨"qq_new", "qq_old", 9⟩], false) := by decide

/-- C4 (amended): for a decoded confidential Transfer whose first input is
Coin-kind, owned by zk-account `q` mapped to t-address `tAddr`, and whose
first output is Memo-kind deriving the new zk-account `qqNew`: the handler
returns `ok`, inserts the address mapping `(tAddr, qqNew)`, inserts a
transaction-count row for `tAddr` at the block, and inserts exactly one
trading-tx row — with `to = qqNew` and `from = q`, the input owner's
zk-account (not the t-address). -/
theorem C4_transfer_facts (env : DbEnv) (block : Nat)
    (q qqNew tAddr json : String) (db : Db) (logs : List String)
    (ins : List QQInput) (outs : List QQOutput)
    (hqq : env.fail (.qqTx json block) = false)
    (hlk : env.failGetTaddr q = false)
    (hmap : env.fail (.addrMappings tAddr qqNew block) = false)
    (hcnt : env.fail (.transactionCount tAddr block) = false)
    (htr : env.fail (.tradingTx qqNew q block) = false)
    (hresolve : get_taddress_for_qaddress q db = some tAddr)
    (hfresh : db.trading_tx.any (fun r =>
      r.to_address == qqNew && r.from_address == q &&
        r.block == u64_as_i64 block) = false) :
    ∃ s' : St,
      decode_standard_any env
        (.transferTx ⟨.decoded (.TransactionTransfer
          (⟨IOType.Coin, some q⟩ :: ins)
          (⟨IOType.Memo, .ok ⟨some qqNew⟩⟩ :: outs)) json⟩) block ⟨db, logs⟩
      = .ok (.NyksZkosMsgTransferTx ⟨.decoded (.TransactionTransfer
          (⟨IOType.Coin, some q⟩ :: ins)
          (⟨IOType.Memo, .ok ⟨some qqNew⟩⟩ :: outs)) json⟩) s'
      ∧ hasAddrMapping tAddr qqNew s'.db = true
      ∧ hasTransactionCount tAddr block s'.db = true
      ∧ s'.db.trading_tx = db.trading_tx ++ [⟨qqNew, q, u64_as_i64 block⟩] := by
  have hres : get_taddress_for_qaddress q (insert_qq_tx json block db)
      = some tAddr := by
    unfold get_taddress_for_qaddress at hresolve ⊢
    rw [(insert_qq_tx_other json block db).1]
    exact hresolve
  refine ⟨⟨insert_trading_tx qqNew q block (insert_transaction_count tAddr
      block (insert_addr_mappings tAddr qqNew block
        (insert_qq_tx json block db))), logs⟩, ?_, ?_, ?_, ?_⟩
  · simp only [decode_standard_any, decode_qq_transaction, runInsertLogged,
      applyDbOp, hqq, hlk, hres, hmap, hcnt, htr, Bool.false_eq_true,
      if_false, and_self, if_true, reduceIte]
  · unfold hasAddrMapping
    simp only [St.db]
    rw [(insert_trading_tx_other _ _ _ _).1,
      (insert_transaction_count_other _ _ _).2.2]
    have h2 := insert_addr_mappings_mem tAddr qqNew block
      (insert_qq_tx json block db)
    unfold hasAddrMapping at h2
    exact h2
  · unfold hasTransactionCount
    simp only [St.db]
    rw [(insert_trading_tx_other _ _ _ _).2]
    have h2 := insert_transaction_count_mem tAddr block
      (insert_addr_mappings tAddr qqNew block (insert_qq_tx json block db))
    unfold hasTransactionCount at h2
    exact h2
  · simp only [St.db]
    have hY : (insert_transaction_count tAddr block
        (insert_addr_mappings tAddr qqNew block
          (insert_qq_tx json block db))).trading_tx = db.trading_tx := by
      rw [insert_transaction_count_trading, insert_addr_mappings_trading,
        (insert_qq_tx_other json block db).2.2.1]
    rw [insert_trading_tx_fresh qqNew q block _ (by rw [hY]; exact hfresh), hY]

/-- Witness for C4 (amended) at the concrete scenario of the spec's
end-to-end example. -/
theorem C4_transfer_facts_witness :
    (envOk.fail (.qqTx "json1" 9) = false
      ∧ get_taddress_for_qaddress "qq_old"
          { Db.empty with addr_mappings := [⟨"addr1", "qq_old", 0⟩] }
          = some "addr1")
    ∧ ∃ s' : St,
      decode_standard_any envOk
        (.transferTx ⟨.decoded (.TransactionTransfer
          [⟨IOType.Coin, some "qq_old"⟩]
          [⟨IOType.Memo, .ok ⟨some "qq_new"⟩⟩]) "json1"⟩) 9
        ⟨{ Db.empty with addr_mappings := [⟨"addr1", "qq_old", 0⟩] }, []⟩
      = .ok (.NyksZkosMsgTransferTx ⟨.decoded (.TransactionTransfer
          [⟨IOType.Coin, some "qq_old"⟩]
          [⟨IOType.Memo, .ok ⟨some "qq_new"⟩⟩]) "json1"⟩) s'
      ∧ hasAddrMapping "addr1" "qq_new" s'.db = true
      ∧ hasTransactionCount "addr1" 9 s'.db = true
      ∧ s'.db.trading_tx
          = { Db.empty with
              addr_mappings := [⟨"addr1", "qq_old", 0⟩] }.trading_tx
            ++ [⟨"qq_new", "qq_old", u64_as_i64 9⟩] :=
  ⟨⟨by decide, by decide⟩,
    C4_transfer_facts envOk 9 "qq_old" "qq_new" "addr1" "json1"
      { Db.empty with addr_mappings := [⟨"addr1", "qq_old", 0⟩] } [] [] []
      (by decide) (by decide) (by decide) (by decide) (by decide) (by decide)
      (by decide)⟩

theorem insert_order_open_tx_other (toA fromA : String) (block : Nat)
    (db : Db) :
    (insert_order_open_tx toA fromA block db).order_close_tx
        = db.order_close_tx
    ∧ (insert_order_open_tx toA fromA block db).trading_tx = db.trading_tx := by
  unfold insert_order_open_tx; split <;> exact ⟨rfl, rfl⟩

theorem insert_order_close_tx_other (toA fromA : String) (block : Nat)
    (db : Db) :
    (insert_order_close_tx toA fromA block db).order_open_tx
        = db.order_open_tx
    ∧ (insert_order_close_tx toA fromA block db).trading_tx
        = db.trading_tx := by
  unfold insert_order_close_tx; split <;> exact ⟨rfl, rfl⟩

/-- A fresh order-open row is appended. -/
theorem insert_order_open_tx_fresh (toA fromA : String) (b : Nat) (db : Db)
    (h : db.order_open_tx.any (fun r =>
      r.to_address == toA && r.from_address == fromA &&
        r.block == u64_as_i64 b) = false) :
    (insert_order_open_tx toA fromA b db).order_open_tx
      = db.order_open_tx ++ [⟨toA, fromA, u64_as_i64 b⟩] := by
  unfold insert_order_open_tx
  rw [if_neg (by simp [h])]

/-- A fresh order-close row is appended. -/
theorem insert_order_close_tx_fresh (toA fromA : String) (b : Nat) (db : Db)
    (h : db.order_close_tx.any (fun r =>
      r.to_address == toA && r.from_address == fromA &&
        r.block == u64_as_i64 b) = false) :
    (insert_order_close_tx toA fromA b db).order_close_tx
      = db.order_close_tx ++ [⟨toA, fromA, u64_as_i64 b⟩] := by
  unfold insert_order_close_tx
  rw [if_neg (by simp [h])]

/-- C8: for a decoded Script-variant confidential transaction with non-empty
inputs and outputs, a resolvable owner address, and a derivable output
account: if the first input is Coin-kind and the first output is Memo-kind,
exactly one order-open fact is recorded (no order-close and no trading-tx);
if Memo-kind input and Coin-kind output, exactly one order-close fact; any
other combination records neither fact and is not an error — the handler
returns `ok` in all three cases. -/
theorem C8_script_classification (env : DbEnv) (block : Nat)
    (q qqNew json : String) (db : Db) (logs : List String)
    (ins : List QQInput) (outs : List QQOutput) (ki ko : IOType)
    (hqq : env.fail (.qqTx json block) = false)
    (hoo : env.fail (.orderOpenTx qqNew q block) = false)
    (hoc : env.fail (.orderCloseTx qqNew q block) = false)
    (hfo : db.order_open_tx.any (fun r =>
      r.to_address == qqNew && r.from_address == q &&
        r.block == u64_as_i64 block) = false)
    (hfc : db.order_close_tx.any (fun r =>
      r.to_address == qqNew && r.from_address == q &&
        r.block == u64_as_i64 block) = false) :
    isOkResult (decode_standard_any env (.transferTx ⟨.decoded
        (.TransactionScript (⟨ki, some q⟩ :: ins)
          (⟨ko, .ok ⟨some qqNew⟩⟩ :: outs)) json⟩) block ⟨db, logs⟩) = true
    ∧ ((decode_standard_any env (.transferTx ⟨.decoded
        (.TransactionScript (⟨ki, some q⟩ :: ins)
          (⟨ko, .ok ⟨some qqNew⟩⟩ :: outs)) json⟩) block ⟨db, logs⟩).stateOf.map
        (fun s => (s.db.order_open_tx, s.db.order_close_tx, s.db.trading_tx)))
      = some
        ((if ki = IOType.Coin ∧ ko = IOType.Memo
          then db.order_open_tx ++ [⟨qqNew, q, u64_as_i64 block⟩]
          else db.order_open_tx),
          (if ki = IOType.Memo ∧ ko = IOType.Coin
          then db.order_close_tx ++ [⟨qqNew, q, u64_as_i64 block⟩]
          else db.order_close_tx),
          db.trading_tx) := by
  have hofresh : (insert_qq_tx json block db).order_open_tx.any (fun r =>
      r.to_address == qqNew && r.from_address == q &&
        r.block == u64_as_i64 block) = false := by
    rw [(insert_qq_tx_other json block db).2.2.2.1]; exact hfo
  have hcfresh : (insert_qq_tx json block db).order_close_tx.any (fun r =>
      r.to_address == qqNew && r.from_address == q &&
        r.block == u64_as_i64 block) = false := by
    rw [(insert_qq_tx_other json block db).2.2.2.2]; exact hfc
  by_cases ho : ki = IOType.Coin ∧ ko = IOType.Memo
  · obtain ⟨h1, h2⟩ := ho
    subst h1; subst h2
    constructor
    · simp [isOkResult, decode_standard_any, decode_qq_transaction,
        runInsertLogged, applyDbOp, hqq, hoo]
    · simp [decode_standard_any, decode_qq_transaction, runInsertLogged,
        applyDbOp, PResult.stateOf, hqq, hoo,
        insert_order_open_tx_fresh qqNew q block _ hofresh,
        (insert_qq_tx_other json block db).2.2.2.1,
        (insert_qq_tx_other json block db).2.2.2.2,
        (insert_qq_tx_other json block db).2.2.1,
        (insert_order_open_tx_other qqNew q block
          (insert_qq_tx json block db)).1,
        (insert_order_open_tx_other qqNew q block
          (insert_qq_tx json block db)).2]
  · by_cases hc : ki = IOType.Memo ∧ ko = IOType.Coin
    · obtain ⟨h1, h2⟩ := hc
      subst h1; subst h2
      constructor
      · simp [isOkResult, decode_standard_any, decode_qq_transaction,
          runInsertLogged, applyDbOp, hqq, hoc]
      · simp [decode_standard_any, decode_qq_transaction, runInsertLogged,
          applyDbOp, PResult.stateOf, hqq, hoc,
          insert_order_close_tx_fresh qqNew q block _ hcfresh,
          (insert_qq_tx_other json block db).2.2.2.1,
          (insert_qq_tx_other json block db).2.2.2.2,
          (insert_qq_tx_other json block db).2.2.1,
          (insert_order_close_tx_other qqNew q block
            (insert_qq_tx json block db)).1,
          (insert_order_close_tx_other qqNew q block
            (insert_qq_tx json block db)).2]
    · constructor
      · simp [isOkResult, decode_standard_any, decode_qq_transaction,
          runInsertLogged, applyDbOp, hqq, if_neg ho, if_neg hc]
      · simp [decode_standard_any, decode_qq_transaction, runInsertLogged,
          applyDbOp, PResult.stateOf, hqq, if_neg ho, if_neg hc,
          (insert_qq_tx_other json block db).2.2.2.1,
          (insert_qq_tx_other json block db).2.2.2.2,
          (insert_qq_tx_other json block db).2.2.1]
        split <;>
          exact ⟨(insert_qq_tx_other json block db).2.2.2.1,
            (insert_qq_tx_other json block db).2.2.2.2,
            (insert_qq_tx_other json block db).2.2.1⟩

/-- Witness for C8 at a concrete Coin→Memo script transaction on the empty
database. -/
theorem C8_script_classification_witness :
    (envOk.fail (.qqTx "json1" 4) = false
      ∧ Db.empty.order_open_tx.any (fun r =>
          r.to_address == "qq_new" && r.from_address == "qq_old" &&
            r.block == u64_as_i64 4) = false)
    ∧ (isOkResult (decode_standard_any envOk (.transferTx ⟨.decoded
        (.TransactionScript [⟨IOType.Coin, some "qq_old"⟩]
          [⟨IOType.Memo, .ok ⟨some "qq_new"⟩⟩]) "json1"⟩) 4
        ⟨Db.empty, []⟩) = true
    ∧ ((decode_standard_any envOk (.transferTx ⟨.decoded
        (.TransactionScript [⟨IOType.Coin, some "qq_old"⟩]
          [⟨IOType.Memo, .ok ⟨some "qq_new"⟩⟩]) "json1"⟩) 4
        ⟨Db.empty, []⟩).stateOf.map
        (fun s => (s.db.order_open_tx, s.db.order_close_tx, s.db.trading_tx)))
      = some
        ((if IOType.Coin = IOType.Coin ∧ IOType.Memo = IOType.Memo
          then Db.empty.order_open_tx ++ [⟨"qq_new", "qq_old", u64_as_i64 4⟩]
          else Db.empty.order_open_tx),
          (if IOType.Coin = IOType.Memo ∧ IOType.Memo = IOType.Coin
          then Db.empty.order_close_tx ++ [⟨"qq_new", "qq_old", u64_as_i64 4⟩]
          else Db.empty.order_close_tx),
          Db.empty.trading_tx)) :=
  ⟨⟨by decide, by decide⟩,
    C8_script_classification envOk 4 "qq_old" "qq_new" "json1" Db.empty []
      [] [] IOType.Coin IOType.Memo (by decide) (by decide) (by decide)
      (by decide) (by decide)⟩

/-! ## Ingestion loop (`src/pubsub_chain.rs`, `subscribe_block`)

The loop reads the remote head, then repeats: while `block_height ≤ latest`,
fetch the block at `block_height`; on success, decode its transactions
(`decode_tx_base64_standard`, whose `Result` is discarded) and advance; on
the benign error code `"3"`, advance; on any other error, increment the
`attempt` counter declared at the top of the outer `loop` body, and
force-advance with a counter reset when it reaches 3.  After the `while`, the
head is re-queried and the height persisted again.  `BlockRaw` lives in
`block_types.rs`, which is not part of the source tree; modelled from the
spec: `get_local_block_height`/`get_latest_block_height` supply the initial
state, `get_block_data_from_height` is an oracle of fetch outcomes, and each
`write_local_block_height` call is recorded as a `persist` event. -/

/-- Outcome of one `BlockRaw::get_block_data_from_height` call: a block (its
transactions' fact extraction does not feed back into the loop state), or an
error with its code string (`"3"` is the benign "height not produced"
code). -/
inductive FetchResult
  | success
  | errCode (code : String)
deriving DecidableEq, Repr, BEq

/-- Observable events of the loop: each fetch, tagged with its outcome; each
forced advance; each persisted cursor value; each head re-query starting a
new catch-up pass (where `attempt` is re-initialised to 0). -/
inductive Event
  | fetchOk (h : Nat)
  | fetchBenign (h : Nat)
  | fetchFail (h : Nat)
  | forceAdvance (h : Nat)
  | refreshHead (newLatest : Nat)
  | persist (h : Nat)
deriving DecidableEq, Repr, BEq

/-- The loop's mutable state: `block_height`, the shared `attempt` counter,
and the last fetched remote head. -/
structure LoopSt where
  block_height : Nat
  attempt : Nat
  latest_height : Nat
deriving DecidableEq, Repr

/-- One iteration of the `while block_height <= latest_height` body
(pubsub_chain.rs lines 51–81): fetch, dispatch on the outcome, and always
finish with `write_local_block_height(block_height)`. -/
def subscribeStep (fr : FetchResult) (st : LoopSt) : LoopSt × List Event :=
  match fr with
  | .success =>
    ({ st with block_height := st.block_height + 1 },
      [.fetchOk st.block_height, .persist (st.block_height + 1)])
  | .errCode code =>
    if code = "3" then
      ({ st with block_height := st.block_height + 1 },
        [.fetchBenign st.block_height, .persist (st.block_height + 1)])
    else
      if st.attempt + 1 = 3 then
        ({ st with block_height := st.block_height + 1, attempt := 0 },
          [.fetchFail st.block_height, .forceAdvance st.block_height,
            .persist (st.block_height + 1)])
      else
        ({ st with attempt := st.attempt + 1 },
          [.fetchFail st.block_height, .persist st.block_height])

/-- The `while block_height <= latest_height` loop, observed for the first
`frs.length` iterations (the oracle list is the sequence of fetch
outcomes). -/
def runCatchUp (frs : List FetchResult) (st : LoopSt) : LoopSt × List Event :=
  match frs with
  | [] => (st, [])
  | fr :: rest =>
    if st.block_height ≤ st.latest_height then
      let step := subscribeStep fr st
      let tail := runCatchUp rest step.1
      (tail.1, step.2 ++ tail.2)
    else (st, [])

/-- The outer `loop` of `subscribe_block` (lines 49–94): each pass
re-initialises `attempt := 0` (line 50), runs the catch-up `while`, then
re-queries the head (its value supplied by the pass), persists the height
again (line 91) and sleeps. -/
def subscribeLoop : List (List FetchResult × Nat) → LoopSt → LoopSt × List Event
  | [], st => (st, [])
  | (frs, newLatest) :: rest, st =>
    let pass := runCatchUp frs { st with attempt := 0 }
    let st2 := { pass.1 with latest_height := newLatest }
    let tail := subscribeLoop rest st2
    (tail.1, pass.2 ++ [.refreshHead newLatest, .persist pass.1.block_height]
      ++ tail.2)

/-- `subscribe_block` (pubsub_chain.rs lines 39–95): start from the persisted
local height `bh0` and the successfully queried remote head `head0` (a failed
head query panics and is the one fatal case), then run the loop over the
supplied passes. -/
def subscribe_block (bh0 head0 : Nat)
    (passes : List (List FetchResult × Nat)) : LoopSt × List Event :=
  subscribeLoop passes ⟨bh0, 0, head0⟩

example :
    (subscribe_block 10 11 [([.success, .success], 11)]).2
      = [.fetchOk 10, .persist 11, .fetchOk 11, .persist 12,
          .refreshHead 11, .persist 12] := by decide

example :
    (subscribe_block 10 10 [([.errCode "3"], 10)]).2
      = [.fetchBenign 10, .persist 11, .refreshHead 10, .persist 11] := by
  decide

/-- C3 counterexample: with a fetch oracle failing twice at height 10,
succeeding, then failing once at height 11, the loop force-advances past
height 11 — `forceAdvance 11` appears in the trace although only ONE fetch
failure (and no successful fetch) occurred at height 11: the `attempt`
counter is shared across heights within a pass and is not reset by a
successful fetch, so "3 consecutive failures at that same height" is not
what gates a forced advance. -/
theorem C3_counterexample :
    (subscribe_block 10 100 [([.errCode "boom", .errCode "boom", .success,
        .errCode "boom"], 100)]).2.contains (.forceAdvance 11) = true
    ∧ ((subscribe_block 10 100 [([.errCode "boom", .errCode "boom", .success,
        .errCode "boom"], 100)]).2.filter
        (fun e => e == Event.fetchFail 11)).length = 1
    ∧ ((subscribe_block 10 100 [([.errCode "boom", .errCode "boom", .success,
        .errCode "boom"], 100)]).2.filter
        (fun e => e == Event.fetchOk 11)).length = 0 :=
  ⟨by decide, by decide, by decide⟩

/-- Walk a trace validating the force-advance discipline of the SHARED
attempt counter: non-benign failures increment it; when it reaches 3 a
`forceAdvance` must follow immediately and the counter resets; a
`forceAdvance` anywhere else is a violation; a head re-query (new pass)
resets the counter; successful and benign fetches leave it unchanged.
Returns the scan state, or `none` on a violation. -/
def forceScan (st : Nat × Bool) : List Event → Option (Nat × Bool)
  | [] => some st
  | e :: rest =>
    match st, e with
    | (_, true), .forceAdvance _ => forceScan (0, false) rest
    | (_, true), _ => none
    | (a, false), .fetchFail _ =>
      if a + 1 = 3 then forceScan (0, true) rest
      else forceScan (a + 1, false) rest
    | (_, false), .forceAdvance _ => none
    | (_, false), .refreshHead _ => forceScan (0, false) rest
    | (a, false), _ => forceScan (a, false) rest

theorem forceScan_append (l1 l2 : List Event) :
    ∀ st, forceScan st (l1 ++ l2)
      = (forceScan st l1).bind (fun st2 => forceScan st2 l2) := by
  induction l1 with
  | nil => intro st; simp [forceScan]
  | cons e l1 ih =>
    intro st
    rcases st with ⟨a, mf⟩
    cases mf <;> cases e <;>
      simp only [List.cons_append, forceScan] <;>
      (try split) <;> simp [ih]

theorem runCatchUp_forceScan (frs : List FetchResult) :
    ∀ st : LoopSt, st.attempt ≤ 2 →
    forceScan (st.attempt, false) (runCatchUp frs st).2
      = some ((runCatchUp frs st).1.attempt, false)
    ∧ (runCatchUp frs st).1.attempt ≤ 2 := by
  induction frs with
  | nil => intro st h; exact ⟨rfl, h⟩
  | cons fr rest ih =>
    intro st h
    unfold runCatchUp
    by_cases hb : st.block_height ≤ st.latest_height
    · rw [if_pos hb]
      rcases fr with _ | code
      · dsimp only [subscribeStep]
        rw [forceScan_append]
        have h2 := ih { st with block_height := st.block_height + 1 } h
        simpa [forceScan] using h2
      · dsimp only [subscribeStep]
        by_cases hcode : code = "3"
        · rw [if_pos hcode]
          dsimp only
          rw [forceScan_append]
          have h2 := ih { st with block_height := st.block_height + 1 } h
          simpa [forceScan] using h2
        · rw [if_neg hcode]
          by_cases h3 : st.attempt + 1 = 3
          · rw [if_pos h3]
            dsimp only
            rw [forceScan_append]
            have h2 := ih
              { st with block_height := st.block_height + 1, attempt := 0 }
              (by simp)
            simpa [forceScan, h3] using h2
          · rw [if_neg h3]
            dsimp only
            rw [forceScan_append]
            have h2 := ih { st with attempt := st.attempt + 1 }
              (by show st.attempt + 1 ≤ 2; omega)
            simpa [forceScan, h3] using h2
    · rw [if_neg hb]
      exact ⟨rfl, h⟩

theorem subscribeLoop_forceScan :
    ∀ (passes : List (List FetchResult × Nat)) (st : LoopSt),
    (forceScan (0, false) (subscribeLoop passes st).2).isSome = true := by
  intro passes
  induction passes with
  | nil => intro st; rfl
  | cons p rest ih =>
    intro st
    rcases p with ⟨frs, nl⟩
    unfold subscribeLoop
    dsimp only
    have hpass := runCatchUp_forceScan frs { st with attempt := 0 } (by simp)
    have hp1 : forceScan (0, false)
        (runCatchUp frs { st with attempt := 0 }).2
        = some ((runCatchUp frs { st with attempt := 0 }).1.attempt, false) :=
      hpass.1
    have htail := ih { (runCatchUp frs { st with attempt := 0 }).1 with
      latest_height := nl }
    simp [forceScan_append, hp1, forceScan, htail]

/-- C3 (amended): the non-benign fetch-failure counter is a single `attempt`
counter shared across heights within one catch-up pass (declared at the top
of the outer `loop`, pubsub_chain.rs line 50) — not a per-height counter.  In
every trace of the loop: each non-benign failure increments the counter;
exactly when it reaches 3 the current height is force-advanced, immediately,
and the counter resets; a new pass (head re-query) re-initialises it;
successful and benign fetches do NOT reset it, which is why a height can be
force-advanced after fewer than 3 failures at that height
(`C3_counterexample`). -/
theorem C3_force_advance_discipline (bh0 head0 : Nat)
    (passes : List (List FetchResult × Nat)) :
    (forceScan (0, false) (subscribe_block bh0 head0 passes).2).isSome
      = true :=
  subscribeLoop_forceScan passes ⟨bh0, 0, head0⟩

/-- Walk a trace maintaining the greatest persisted cursor value so far:
fail if a later `persist` is smaller (the persisted sequence must be
non-decreasing) or if any fetch targets a height strictly below it (the loop
must never re-fetch below the cursor; re-fetching the in-flight height equal
to the cursor is allowed).  Returns the final cursor, or `none` on a
violation. -/
def cursorScan (m : Nat) : List Event → Option Nat
  | [] => some m
  | .persist p :: rest => if m ≤ p then cursorScan p rest else none
  | .fetchOk h :: rest => if m ≤ h then cursorScan m rest else none
  | .fetchBenign h :: rest => if m ≤ h then cursorScan m rest else none
  | .fetchFail h :: rest => if m ≤ h then cursorScan m rest else none
  | .forceAdvance _ :: rest => cursorScan m rest
  | .refreshHead _ :: rest => cursorScan m rest

theorem cursorScan_append (l1 l2 : List Event) :
    ∀ m, cursorScan m (l1 ++ l2)
      = (cursorScan m l1).bind (fun m2 => cursorScan m2 l2) := by
  induction l1 with
  | nil => intro m; simp [cursorScan]
  | cons e l1 ih =>
    intro m
    cases e <;>
      simp only [List.cons_append, cursorScan] <;>
      (try split) <;> simp [ih]

theorem runCatchUp_cursorScan (frs : List FetchResult) :
    ∀ (st : LoopSt) (m : Nat), m ≤ st.block_height →
    ∃ m2, cursorScan m (runCatchUp frs st).2 = some m2
      ∧ m2 ≤ (runCatchUp frs st).1.block_height := by
  induction frs with
  | nil => intro st m h; exact ⟨m, rfl, h⟩
  | cons fr rest ih =>
    intro st m h
    unfold runCatchUp
    by_cases hb : st.block_height ≤ st.latest_height
    · rw [if_pos hb]
      rcases fr with _ | code
      · dsimp only [subscribeStep]
        rw [cursorScan_append]
        obtain ⟨m2, hm2, hle⟩ := ih { st with block_height :=
          st.block_height + 1 } (st.block_height + 1) (by simp)
        refine ⟨m2, ?_, hle⟩
        simp [cursorScan, if_pos h, if_pos (show m ≤ st.block_height + 1 by
          omega), hm2]
      · dsimp only [subscribeStep]
        by_cases hcode : code = "3"
        · rw [if_pos hcode]
          dsimp only
          rw [cursorScan_append]
          obtain ⟨m2, hm2, hle⟩ := ih { st with block_height :=
            st.block_height + 1 } (st.block_height + 1) (by simp)
          refine ⟨m2, ?_, hle⟩
          simp [cursorScan, if_pos h, if_pos (show m ≤ st.block_height + 1 by
            omega), hm2]
        · rw [if_neg hcode]
          by_cases h3 : st.attempt + 1 = 3
          · rw [if_pos h3]
            dsimp only
            rw [cursorScan_append]
            obtain ⟨m2, hm2, hle⟩ := ih
              { st with block_height := st.block_height + 1, attempt := 0 }
              (st.block_height + 1) (by simp)
            refine ⟨m2, ?_, hle⟩
            simp [cursorScan, if_pos h, if_pos (show m ≤ st.block_height + 1
              by omega), hm2]
          · rw [if_neg h3]
            dsimp only
            rw [cursorScan_append]
            obtain ⟨m2, hm2, hle⟩ := ih { st with attempt := st.attempt + 1 }
              st.block_height (by simp)
            refine ⟨m2, ?_, hle⟩
            simp [cursorScan, if_pos h, hm2]
    · rw [if_neg hb]
      exact ⟨m, rfl, h⟩

theorem subscribeLoop_cursorScan :
    ∀ (passes : List (List FetchResult × Nat)) (st : LoopSt) (m : Nat),
    m ≤ st.block_height →
    (cursorScan m (subscribeLoop passes st).2).isSome = true := by
  intro passes
  induction passes with
  | nil => intro st m h; rfl
  | cons p rest ih =>
    intro st m h
    rcases p with ⟨frs, nl⟩
    unfold subscribeLoop
    dsimp only
    obtain ⟨m2, hm2, hle⟩ := runCatchUp_cursorScan frs
      { st with attempt := 0 } m (by simpa using h)
    have htail := ih { (runCatchUp frs { st with attempt := 0 }).1 with
      latest_height := nl }
      (runCatchUp frs { st with attempt := 0 }).1.block_height (by simp)
    simp [cursorScan_append, hm2, cursorScan, if_pos hle, htail]

/-- C10: across one run of the ingestion loop, the sequence of values
persisted as the local block height is monotonically non-decreasing, and the
loop never fetches a height strictly below the most recently persisted
cursor value — only the single in-flight height (equal to the cursor) may be
fetched again during a retry.  `cursorScan` walks the whole trace enforcing
exactly these two conditions and accepts every trace of the loop. -/
theorem C10_cursor_monotone_never_refetch_below (bh0 head0 : Nat)
    (passes : List (List FetchResult × Nat)) :
    (cursorScan 0 (subscribe_block bh0 head0 passes).2).isSome = true :=
  subscribeLoop_cursorScan passes ⟨bh0, 0, head0⟩ 0 (Nat.zero_le bh0)

end TwilightIndexer
